import Mathlib

/-!
Shallow embedding of the loltoml streaming TOML parser
(`include/loltoml/detail/parser.hpp`) and verification of structural
properties of the event stream it delivers.

Modelling conventions:
* Input bytes are represented as `List Char` (each char standing for one
  byte; all parser decisions in the source are byte comparisons).
* The event consumer (`Handler`) is modelled by accumulating the delivered
  events in order in a list carried by the parser state.
* The byte cursor (`input_stream_t`, whose source file is not part of the
  repository snapshot) is modelled from the spec, section 4.1: `peek`
  returns the next unconsumed byte without advancing or an end-of-input
  sentinel, `get` returns and consumes it advancing the offset by one,
  `eof` reports exhaustion, `processed` is the consumed-byte count.
  `get` at end of input raises an "Unexpected end of input" error at the
  current `processed` count (this matches the spec's testable property
  that an unterminated basic string fails at an offset equal to the total
  input length).  The end-of-input sentinel of `peek` is never a control
  character, a whitespace character, a word character or a key character
  (as with the byte 0xFF an `std::istream`-backed cursor yields).
* `std::size_t` offsets are `Nat`; the single subtraction in the source
  (`last_char_offset`) is modelled with explicit wrap-around modulo 2^64.
* C++ exceptions are modelled by an error result that aborts the parse.
* `std::stod` results (C++ `double`) are modelled by recording the raw
  token delivered to `handler.floating_point`; no claim depends on the
  numeric value of a double.
* `std::stoll` is modelled exactly on the tokens the parser feeds it
  (non-empty all-digit strings): it yields the decimal value, or an
  out-of-range failure (the C++ `std::out_of_range` exception, which
  propagates out of the parse) above `INT64_MAX`.
* The recursive-descent functions and their internal loops are defined
  with an explicit fuel parameter; exhausting the fuel yields the
  distinguished result `outOfFuel`, which is neither success nor a parse
  error.  All theorems about successful or failing parses hold for every
  fuel value or are witnessed at a concrete sufficient fuel.
-/

/-- Scalar type tags, `parser_t::toml_type_t` from the source. -/
inductive toml_type_t where
  | string
  | integer
  | floating_point
  | boolean
  | datetime
  | array
  | table
  | symbol
deriving DecidableEq, Repr

/-- Events delivered to the handler; one constructor per callback of the
event consumer contract. -/
inductive Event where
  | start_document
  | finish_document
  | comment (text : List Char)
  | key (name : List Char)
  | string (s : List Char)
  | integer (i : Int)
  | floating_point (token : List Char)
  | boolean (b : Bool)
  | symbol (name : List Char)
  | start_array
  | finish_array (count : Nat)
  | start_inline_table
  | finish_inline_table (count : Nat)
  | table (path : List (List Char))
  | array_table (path : List (List Char))
deriving DecidableEq, Repr

/-- The single error kind: message plus byte offset (`parser_error_t`). -/
structure ParseError where
  message : String
  offset : Nat
deriving DecidableEq, Repr

/-- Parser state: unconsumed input, consumed-byte count, events delivered
so far. -/
structure PState where
  rest : List Char
  processed : Nat
  events : List Event
deriving DecidableEq, Repr

/-- Result of running a parser step: success with a value and next state,
a parse error, or fuel exhaustion. -/
inductive PRes (α : Type) where
  | ok (a : α) (st : PState)
  | err (e : ParseError)
  | outOfFuel
deriving DecidableEq, Repr

/-- The parser monad: state transformer with errors and fuel exhaustion. -/
def PM (α : Type) : Type := PState → PRes α

instance : Monad PM where
  pure a := fun st => .ok a st
  bind x f := fun st => match x st with
    | .ok a st1 => f a st1
    | .err e => .err e
    | .outOfFuel => .outOfFuel

/-- Throw a parser error. -/
def throwP {α : Type} (e : ParseError) : PM α := fun _ => .err e

/-- Byte cursor `get`.  Modelled from the spec: returns and consumes the
next byte, advancing the offset by one; at end of input the parse fails
with "Unexpected end of input" at the consumed-byte count. -/
def input_get : PM Char := fun st =>
  match st.rest with
  | [] => .err ⟨"Unexpected end of input", st.processed⟩
  | c :: rest => .ok c ⟨rest, st.processed + 1, st.events⟩

/-- Byte cursor `peek`.  Modelled from the spec: next unconsumed byte
without advancing, or `none` as the end-of-input sentinel. -/
def input_peek : PM (Option Char) := fun st => .ok st.rest.head? st

/-- Byte cursor `eof`.  Modelled from the spec. -/
def input_eof : PM Bool := fun st => .ok st.rest.isEmpty st

/-- Byte cursor `processed`.  Modelled from the spec: number of bytes
consumed so far. -/
def get_processed : PM Nat := fun st => .ok st.processed st

/-- Deliver one event to the handler (events are accumulated in order). -/
def emit (e : Event) : PM Unit := fun st =>
  .ok () ⟨st.rest, st.processed, st.events ++ [e]⟩

/-- Size of the C++ `std::size_t` type on the reference platform. -/
def SIZE_T_MOD : Nat := 2 ^ 64

/-- The source's `parser_t::last_char_offset`:
`(processed == 0) ? 0 : (processed - 1)`, with the `std::size_t`
subtraction modelled as wrap-around arithmetic modulo 2^64. -/
def last_char_offset (st : PState) : Nat :=
  if st.processed = 0 then 0 else (st.processed + (SIZE_T_MOD - 1)) % SIZE_T_MOD

/-- Throw a parser error positioned at `last_char_offset`. -/
def throw_at_last {α : Type} (msg : String) : PM α := fun st =>
  .err ⟨msg, last_char_offset st⟩

/-- Read `last_char_offset` without consuming input. -/
def get_last_char_offset : PM Nat := fun st => .ok (last_char_offset st) st

/-- Named byte constants (kept out of character-literal syntax). -/
def bsl_c : Char := Char.ofNat 92

def dq_c : Char := Char.ofNat 34

def apos_c : Char := Char.ofNat 39

def cr_c : Char := Char.ofNat 13

def lf_c : Char := Char.ofNat 10

def tab_c : Char := Char.ofNat 9

/-- The source's `iscontrol`: byte value below 32. -/
def iscontrol (ch : Char) : Bool := ch.toNat < 32

/-- The source's `is_word_character`: `[A-Za-z0-9+\-_.]`. -/
def is_word_character (ch : Char) : Bool :=
  (decide (97 ≤ ch.toNat) && decide (ch.toNat ≤ 122)) ||
  (decide (65 ≤ ch.toNat) && decide (ch.toNat ≤ 90)) ||
  (decide (48 ≤ ch.toNat) && decide (ch.toNat ≤ 57)) ||
  ch = '+' || ch = '-' || ch = '_' || ch = '.'

/-- The source's `is_key_character`: `[A-Za-z0-9\-_]`. -/
def is_key_character (ch : Char) : Bool :=
  (decide (97 ≤ ch.toNat) && decide (ch.toNat ≤ 122)) ||
  (decide (65 ≤ ch.toNat) && decide (ch.toNat ≤ 90)) ||
  (decide (48 ≤ ch.toNat) && decide (ch.toNat ≤ 57)) ||
  ch = '-' || ch = '_'

/-- Hex digit table lookup used by the source's `escape_char`. -/
def hex_digit_char (n : Nat) : Char :=
  if n < 10 then Char.ofNat (48 + n) else Char.ofNat (87 + n)

/-- The source's `escape_char`, used to build `parse_chars` messages.
`std::isprint` is modelled as the printable ASCII range 32..126. -/
def escape_char (ch : Char) : String :=
  if ch = bsl_c then "\\\\"
  else if ch = apos_c then "\\'"
  else if ch = dq_c then "\\\""
  else if ch = Char.ofNat 8 then "\\b"
  else if ch = tab_c then "\\t"
  else if ch = cr_c then "\\r"
  else if ch = lf_c then "\\n"
  else if 32 ≤ ch.toNat ∧ ch.toNat ≤ 126 then String.mk [ch]
  else String.mk [bsl_c, 'x', hex_digit_char (ch.toNat / 16), hex_digit_char (ch.toNat % 16)]

/-- Message construction of the source's `parse_chars` failure. -/
def expected_symbols_msg : List Char → String
  | [] => "Expected one of the following symbols: "
  | e :: rest =>
    "Expected one of the following symbols: " ++ "'" ++ escape_char e ++ "'" ++
      String.join (rest.map (fun c => ", '" ++ escape_char c ++ "'"))

/-- The source's `parse_chars`: consume one byte and require it to be one
of the expected characters. -/
def parse_chars (expected : List Char) : PM Char := do
  let result ← input_get
  if expected.contains result then pure result
  else throw_at_last (expected_symbols_msg expected)

/-- Space or tab, the characters consumed by `skip_spaces`. -/
def is_space_or_tab (c : Char) : Bool := c = ' ' || c = tab_c

/-- The source's `skip_spaces` loop: consume the maximal run of spaces
and tabs. -/
def skip_spaces : PM Unit := fun st =>
  .ok () ⟨st.rest.dropWhile is_space_or_tab,
          st.processed + (st.rest.takeWhile is_space_or_tab).length,
          st.events⟩

/-- The characters accepted by `std::isspace` in the default locale. -/
def is_space_cpp (c : Char) : Bool :=
  c = ' ' || c.toNat = 9 || c.toNat = 10 || c.toNat = 11 || c.toNat = 12 || c.toNat = 13

/-- The `while (std::isspace(input.peek())) input.get();` loop of the
source's multiline-string line-splicing. -/
def skip_isspace_run : PM Unit := fun st =>
  .ok () ⟨st.rest.dropWhile is_space_cpp,
          st.processed + (st.rest.takeWhile is_space_cpp).length,
          st.events⟩

/-- The source's `parse_new_line`: one `\n`, or `\r` followed by `\n`. -/
def parse_new_line : PM Unit := do
  let ch ← input_get
  let ch ← if ch = cr_c then input_get else pure ch
  if ch = lf_c then pure () else throw_at_last "Expected new-line"

/-- Loop condition of the source's `parse_comment`:
`input.peek() == '\t' || !iscontrol(input.peek())`.  The end-of-input
sentinel is not a control character, so at end of input the condition
holds and the subsequent `get` fails. -/
def comment_char (c : Char) : Bool := c = tab_c || !iscontrol c

/-- Body of the source's `parse_comment` after the leading `#` has been
consumed: consume the maximal run of comment characters, then deliver the
text; reaching end of input fails inside the loop's `get`. -/
def comment_rest : PM Unit := fun st =>
  let txt := st.rest.takeWhile comment_char
  match st.rest.dropWhile comment_char with
  | [] => .err ⟨"Unexpected end of input", st.processed + txt.length⟩
  | c :: rest =>
    .ok () ⟨c :: rest, st.processed + txt.length, st.events ++ [.comment txt]⟩

/-- The source's `parse_comment` (callers guarantee the next byte is `#`). -/
def parse_comment : PM Unit := do
  let _ ← input_get
  comment_rest

/-- The source's `parse_hex_digit`. -/
def parse_hex_digit : PM Nat := do
  let ch ← input_get
  if 48 ≤ ch.toNat ∧ ch.toNat ≤ 57 then pure (ch.toNat - 48)
  else if 65 ≤ ch.toNat ∧ ch.toNat ≤ 70 then pure (ch.toNat - 65 + 10)
  else if 97 ≤ ch.toNat ∧ ch.toNat ≤ 102 then pure (ch.toNat - 97 + 10)
  else throw_at_last "Expected hex-digit"

/-- The source's `parse_4_digit_codepoint` (`codepoint << 4` written as
multiplication by 16). -/
def parse_4_digit_codepoint : PM Nat := do
  let d1 ← parse_hex_digit
  let d2 ← parse_hex_digit
  let d3 ← parse_hex_digit
  let d4 ← parse_hex_digit
  pure (((d1 * 16 + d2) * 16 + d3) * 16 + d4)

/-- The source's `parse_8_digit_codepoint`. -/
def parse_8_digit_codepoint : PM Nat := do
  let d1 ← parse_hex_digit
  let d2 ← parse_hex_digit
  let d3 ← parse_hex_digit
  let d4 ← parse_hex_digit
  let d5 ← parse_hex_digit
  let d6 ← parse_hex_digit
  let d7 ← parse_hex_digit
  let d8 ← parse_hex_digit
  pure (((((((d1 * 16 + d2) * 16 + d3) * 16 + d4) * 16 + d5) * 16 + d6) * 16 + d7) * 16 + d8)

/-- The source's `process_codepoint`: validate a decoded code point and
append its UTF-8 encoding to the output, or fail at the escape sequence's
offset. -/
def process_codepoint (codepoint escape_sequence_offset : Nat) (output : List Char) :
    Except ParseError (List Char) :=
  if 0xD800 ≤ codepoint ∧ codepoint ≤ 0xDFFF then
    .error ⟨"Surrogate pairs are not allowed", escape_sequence_offset⟩
  else if 0x10FFFF < codepoint then
    .error ⟨"Codepoint must be less or equal than 0x10FFFF", escape_sequence_offset⟩
  else if codepoint ≤ 0x7F then
    .ok (output ++ [Char.ofNat codepoint])
  else if codepoint ≤ 0x7FF then
    .ok (output ++ [Char.ofNat (0xC0 ||| (codepoint >>> 6)),
                    Char.ofNat (0x80 ||| (codepoint &&& 0x3F))])
  else if codepoint ≤ 0xFFFF then
    .ok (output ++ [Char.ofNat (0xE0 ||| (codepoint >>> 12)),
                    Char.ofNat (0x80 ||| ((codepoint >>> 6) &&& 0x3F)),
                    Char.ofNat (0x80 ||| (codepoint &&& 0x3F))])
  else
    .ok (output ++ [Char.ofNat (0xF0 ||| (codepoint >>> 18)),
                    Char.ofNat (0x80 ||| ((codepoint >>> 12) &&& 0x3F)),
                    Char.ofNat (0x80 ||| ((codepoint >>> 6) &&& 0x3F)),
                    Char.ofNat (0x80 ||| (codepoint &&& 0x3F))])

/-- Lift an `Except` computation (a call that may throw) into the parser
monad. -/
def lift_except {α : Type} (x : Except ParseError α) : PM α := fun st =>
  match x with
  | .ok a => .ok a st
  | .error e => .err e

/-- Reference UTF-8 encoder (1 to 4 bytes, by code point range). -/
def utf8_encode (codepoint : Nat) : List Char :=
  if codepoint ≤ 0x7F then [Char.ofNat codepoint]
  else if codepoint ≤ 0x7FF then
    [Char.ofNat (0xC0 ||| (codepoint >>> 6)), Char.ofNat (0x80 ||| (codepoint &&& 0x3F))]
  else if codepoint ≤ 0xFFFF then
    [Char.ofNat (0xE0 ||| (codepoint >>> 12)),
     Char.ofNat (0x80 ||| ((codepoint >>> 6) &&& 0x3F)),
     Char.ofNat (0x80 ||| (codepoint &&& 0x3F))]
  else
    [Char.ofNat (0xF0 ||| (codepoint >>> 18)),
     Char.ofNat (0x80 ||| ((codepoint >>> 12) &&& 0x3F)),
     Char.ofNat (0x80 ||| ((codepoint >>> 6) &&& 0x3F)),
     Char.ofNat (0x80 ||| (codepoint &&& 0x3F))]

/-- Decimal digit predicate (`\d` in the source's regexes). -/
def is_digit_c (c : Char) : Bool := decide (48 ≤ c.toNat) && decide (c.toNat ≤ 57)

/-- All two-part decompositions of a list, in order. -/
def list_splits : List Char → List (List Char × List Char)
  | [] => [([], [])]
  | c :: cs => ([], c :: cs) :: (list_splits cs).map (fun p => (c :: p.1, p.2))

/-- Matcher for the source's integer regex `^\d+$`. -/
def match_integer_regex (l : List Char) : Bool := !l.isEmpty && l.all is_digit_c

/-- Optional-sign prefix stripped variants of a token: the token itself
and, when it starts with `+` or `-`, its tail (regex `[-+]?`). -/
def sign_variants (l : List Char) : List (List Char) :=
  match l with
  | c :: rest => if c = '+' || c = '-' then [c :: rest, rest] else [c :: rest]
  | [] => [[]]

/-- Matcher for the body alternation of the source's float regex:
`(\d*.\d+)|(\d+.\d*)|\d+`.  The dot in the source is an unescaped regex
dot and therefore matches any single character. -/
def match_float_body (l : List Char) : Bool :=
  ((list_splits l).any (fun p =>
      p.1.all is_digit_c &&
      (match p.2 with
       | _ :: d2 => !d2.isEmpty && d2.all is_digit_c
       | [] => false))) ||
  ((list_splits l).any (fun p =>
      !p.1.isEmpty && p.1.all is_digit_c &&
      (match p.2 with
       | _ :: d2 => d2.all is_digit_c
       | [] => false))) ||
  (!l.isEmpty && l.all is_digit_c)

/-- Matcher for the optional exponent part `([eE][-+]?\d+)?` of the
source's float regex. -/
def match_float_exp (l : List Char) : Bool :=
  match l with
  | [] => true
  | c :: rest =>
    (c = 'e' || c = 'E') &&
    (sign_variants rest).any (fun v => !v.isEmpty && v.all is_digit_c)

/-- Matcher for the source's float regex
`^[-+]?((\d*.\d+)|(\d+.\d*)|\d+)([eE][-+]?\d+)?$` (full-match semantics of
`std::regex_match`: some decomposition of the whole token matches). -/
def match_float_regex (l : List Char) : Bool :=
  (sign_variants l).any (fun v =>
    (list_splits v).any (fun p => match_float_body p.1 && match_float_exp p.2))

/-- Identifier head class `[a-zA-Z_]`. -/
def is_ident_head (c : Char) : Bool :=
  (decide (97 ≤ c.toNat) && decide (c.toNat ≤ 122)) ||
  (decide (65 ≤ c.toNat) && decide (c.toNat ≤ 90)) ||
  c = '_'

/-- Identifier tail class `[a-zA-Z0-9_]`. -/
def is_ident_tail (c : Char) : Bool := is_ident_head c || is_digit_c c

/-- Matcher for the source's symbol regex `^[a-zA-Z_][a-zA-Z0-9_]*$`. -/
def match_symbol_regex (l : List Char) : Bool :=
  match l with
  | [] => false
  | c :: rest => is_ident_head c && rest.all is_ident_tail

/-- Decimal value of a digit string (the value `std::stoll` parses). -/
def dec_val (l : List Char) : Nat := l.foldl (fun a c => 10 * a + (c.toNat - 48)) 0

/-- Largest value representable in the C++ `long long` result of
`std::stoll`. -/
def INT64_MAX : Nat := 9223372036854775807

/-- Consume the maximal run of word characters (the source's
`while (is_word_character(input.peek())) result.push_back(input.get());`). -/
def scan_word_chars : PM (List Char) := fun st =>
  .ok (st.rest.takeWhile is_word_character)
     ⟨st.rest.dropWhile is_word_character,
      st.processed + (st.rest.takeWhile is_word_character).length,
      st.events⟩

/-- Consume the maximal run of key characters (the bare-key loop of the
source's `parse_key`). -/
def scan_key_chars : PM (List Char) := fun st =>
  .ok (st.rest.takeWhile is_key_character)
     ⟨st.rest.dropWhile is_key_character,
      st.processed + (st.rest.takeWhile is_key_character).length,
      st.events⟩

/-- The source's `parse_bool_or_number_or_symbol`: scan a maximal
non-empty run of word characters and classify it, in priority order, as
boolean, integer, float or symbol, else fail with "Invalid value" at
offset 0 (the offset the source passes literally).  `std::stoll`'s
out-of-range exception above `INT64_MAX` is modelled as a failure. -/
def parse_bool_or_number_or_symbol : PM toml_type_t := do
  let ch ← input_get
  if ¬ is_word_character ch then throw_at_last "Expected a non-empty symbol"
  else do
    let tail_w ← scan_word_chars
    let result := ch :: tail_w
    if result = "true".toList then do
      emit (.boolean true)
      pure .boolean
    else if result = "false".toList then do
      emit (.boolean false)
      pure .boolean
    else if match_integer_regex result then
      if dec_val result ≤ INT64_MAX then do
        emit (.integer (dec_val result))
        pure .integer
      else throwP ⟨"stoll argument out of range", 0⟩
    else if match_float_regex result then do
      emit (.floating_point result)
      pure .floating_point
    else if match_symbol_regex result then do
      emit (.symbol result)
      pure .symbol
    else throwP ⟨"Invalid value", 0⟩

/-- Loop of the source's `parse_basic_string` (the opening quote has
already been consumed; `result` is the accumulated output). -/
def parse_basic_string : Nat → List Char → PM (List Char)
  | 0, _ => fun _ => .outOfFuel
  | fuel + 1, result => do
    let ch ← input_get
    if iscontrol ch then throw_at_last "Control characters must be escaped"
    else if ch = dq_c then pure result
    else if ch = bsl_c then do
      let escape_sequence_offset ← get_last_char_offset
      let ch2 ← input_get
      if ch2 = 'b' then parse_basic_string fuel (result ++ [Char.ofNat 8])
      else if ch2 = 't' then parse_basic_string fuel (result ++ [tab_c])
      else if ch2 = 'n' then parse_basic_string fuel (result ++ [lf_c])
      else if ch2 = 'f' then parse_basic_string fuel (result ++ [Char.ofNat 12])
      else if ch2 = 'r' then parse_basic_string fuel (result ++ [cr_c])
      else if ch2 = dq_c then parse_basic_string fuel (result ++ [dq_c])
      else if ch2 = bsl_c then parse_basic_string fuel (result ++ [bsl_c])
      else if ch2 = 'u' then do
        let cp ← parse_4_digit_codepoint
        let result2 ← lift_except (process_codepoint cp escape_sequence_offset result)
        parse_basic_string fuel result2
      else if ch2 = 'U' then do
        let cp ← parse_8_digit_codepoint
        let result2 ← lift_except (process_codepoint cp escape_sequence_offset result)
        parse_basic_string fuel result2
      else throwP ⟨"Invalid escape-sequence", escape_sequence_offset⟩
    else parse_basic_string fuel (result ++ [ch])

/-- Loop of the source's `parse_multiline_string` (after the leading
newline, if any, has been discarded). -/
def parse_multiline_loop : Nat → List Char → PM (List Char)
  | 0, _ => fun _ => .outOfFuel
  | fuel + 1, result => do
    let p ← input_peek
    if p = some cr_c ∨ p = some lf_c then do
      parse_new_line
      parse_multiline_loop fuel (result ++ [lf_c])
    else do
      let ch ← input_get
      if iscontrol ch then throw_at_last "Control characters must be escaped"
      else if ch = dq_c then do
        let p2 ← input_peek
        if p2 = some dq_c then do
          let _ ← input_get
          let p3 ← input_peek
          if p3 = some dq_c then do
            let _ ← input_get
            pure result
          else parse_multiline_loop fuel (result ++ [dq_c, dq_c])
        else parse_multiline_loop fuel (result ++ [dq_c])
      else if ch = bsl_c then do
        let p2 ← input_peek
        if p2 = some cr_c ∨ p2 = some lf_c then do
          parse_new_line
          skip_isspace_run
          parse_multiline_loop fuel result
        else do
          let escape_sequence_offset ← get_last_char_offset
          let ch2 ← input_get
          if ch2 = 'b' then parse_multiline_loop fuel (result ++ [Char.ofNat 8])
          else if ch2 = 't' then parse_multiline_loop fuel (result ++ [tab_c])
          else if ch2 = 'n' then parse_multiline_loop fuel (result ++ [lf_c])
          else if ch2 = 'f' then parse_multiline_loop fuel (result ++ [Char.ofNat 12])
          else if ch2 = 'r' then parse_multiline_loop fuel (result ++ [cr_c])
          else if ch2 = dq_c then parse_multiline_loop fuel (result ++ [dq_c])
          else if ch2 = bsl_c then parse_multiline_loop fuel (result ++ [bsl_c])
          else if ch2 = 'u' then do
            let cp ← parse_4_digit_codepoint
            let result2 ← lift_except (process_codepoint cp escape_sequence_offset result)
            parse_multiline_loop fuel result2
          else if ch2 = 'U' then do
            let cp ← parse_8_digit_codepoint
            let result2 ← lift_except (process_codepoint cp escape_sequence_offset result)
            parse_multiline_loop fuel result2
          else throwP ⟨"Invalid escape-sequence", escape_sequence_offset⟩
      else parse_multiline_loop fuel (result ++ [ch])

/-- The source's `parse_multiline_string`: discard one newline
immediately after the opening delimiter, then run the scan loop. -/
def parse_multiline_string (fuel : Nat) : PM (List Char) := do
  let p ← input_peek
  if p = some cr_c ∨ p = some lf_c then parse_new_line else pure ()
  parse_multiline_loop fuel []

/-- The source's `parse_string`: dispatch between the empty string, the
multiline basic string and the basic string, and deliver the result. -/
def parse_string (fuel : Nat) : PM Unit := do
  let _ ← input_get
  let p ← input_peek
  if p = some dq_c then do
    let _ ← input_get
    let p2 ← input_peek
    if p2 = some dq_c then do
      let _ ← input_get
      let s ← parse_multiline_string fuel
      emit (.string s)
    else emit (.string [])
  else do
    let s ← parse_basic_string fuel []
    emit (.string s)

/-- Loop of the source's single-line literal string. -/
def parse_literal_loop : Nat → List Char → PM (List Char)
  | 0, _ => fun _ => .outOfFuel
  | fuel + 1, result => do
    let ch ← input_get
    if iscontrol ch ∧ ch ≠ tab_c then throw_at_last "Control characters are not allowed"
    else if ch = apos_c then pure result
    else parse_literal_loop fuel (result ++ [ch])

/-- Loop of the source's multiline literal string. -/
def parse_multiline_literal_loop : Nat → List Char → PM (List Char)
  | 0, _ => fun _ => .outOfFuel
  | fuel + 1, result => do
    let p ← input_peek
    if p = some cr_c ∨ p = some lf_c then do
      parse_new_line
      parse_multiline_literal_loop fuel (result ++ [lf_c])
    else do
      let ch ← input_get
      if ch = apos_c then do
        let p2 ← input_peek
        if p2 = some apos_c then do
          let _ ← input_get
          let p3 ← input_peek
          if p3 = some apos_c then do
            let _ ← input_get
            pure result
          else parse_multiline_literal_loop fuel (result ++ [apos_c, apos_c])
        else parse_multiline_literal_loop fuel (result ++ [apos_c])
      else if iscontrol ch ∧ ch ≠ tab_c then throw_at_last "Control characters are not allowed"
      else parse_multiline_literal_loop fuel (result ++ [ch])

/-- The source's `parse_literal_string`: dispatch between the empty
string, the multiline literal string (with its leading newline discarded)
and the single-line literal string, and deliver the result. -/
def parse_literal_string (fuel : Nat) : PM Unit := do
  let _ ← input_get
  let p ← input_peek
  if p = some apos_c then do
    let _ ← input_get
    let p2 ← input_peek
    if p2 = some apos_c then do
      let _ ← input_get
      let p3 ← input_peek
      if p3 = some cr_c ∨ p3 = some lf_c then parse_new_line else pure ()
      let s ← parse_multiline_literal_loop fuel []
      emit (.string s)
    else emit (.string [])
  else do
    let s ← parse_literal_loop fuel []
    emit (.string s)

/-- The source's `parse_key`: a double-quoted key via the basic-string
grammar, or a bare key as a non-empty run of key characters. -/
def parse_key (fuel : Nat) : PM (List Char) := do
  let p ← input_peek
  if p = some dq_c then do
    let _ ← input_get
    let key ← parse_basic_string fuel []
    if key = [] then throw_at_last "Expected a non-empty key" else pure key
  else do
    let ch ← input_get
    if ¬ is_key_character ch then throw_at_last "Expected a non-empty key"
    else do
      let ks ← scan_key_chars
      pure (ch :: ks)

/-- The source's `skip_spaces_and_empty_lines`: repeatedly skip spaces,
whole comment lines and blank lines. -/
def skip_spaces_and_empty_lines : Nat → PM Unit
  | 0 => fun _ => .outOfFuel
  | fuel + 1 => do
    let e ← input_eof
    if e then pure ()
    else do
      skip_spaces
      let p ← input_peek
      if p = some '#' then do
        parse_comment
        parse_new_line
        skip_spaces_and_empty_lines fuel
      else if p = some cr_c ∨ p = some lf_c then do
        parse_new_line
        skip_spaces_and_empty_lines fuel
      else pure ()

mutual

/-- The source's `parse_value`: dispatch by one character of lookahead to
inline table, array, basic string, literal string or bare token, and
return the type tag of the produced value. -/
def parse_value : Nat → PM toml_type_t
  | 0 => fun _ => .outOfFuel
  | fuel + 1 => do
    let p ← input_peek
    if p = some '{' then do
      parse_inline_table fuel
      pure .table
    else if p = some '[' then do
      parse_array fuel
      pure .array
    else if p = some dq_c then do
      parse_string fuel
      pure .string
    else if p = some apos_c then do
      parse_literal_string fuel
      pure .string
    else parse_bool_or_number_or_symbol

/-- The source's `parse_array` up to entering its element loop. -/
def parse_array : Nat → PM Unit
  | 0 => fun _ => .outOfFuel
  | fuel + 1 => do
    let _ ← input_get
    emit .start_array
    skip_spaces_and_empty_lines fuel
    parse_array_loop fuel none 0

/-- Element loop of the source's `parse_array`: `array_type` is the type
tag of the last parsed element (`none` before the first element), `size`
the number of elements parsed so far. -/
def parse_array_loop : Nat → Option toml_type_t → Nat → PM Unit
  | 0, _, _ => fun _ => .outOfFuel
  | fuel + 1, array_type, size => do
    let p ← input_peek
    if p = some ']' then do
      let _ ← input_get
      emit (.finish_array size)
    else do
      let item_offset ← get_processed
      let current_item_type ← parse_value fuel
      if size > 0 ∧ array_type ≠ some current_item_type then
        throwP ⟨"All array elements must be of the same type", item_offset⟩
      else do
        skip_spaces_and_empty_lines fuel
        let ch ← input_get
        if ch = ']' then emit (.finish_array (size + 1))
        else if ch = ',' then do
          skip_spaces_and_empty_lines fuel
          parse_array_loop fuel (some current_item_type) (size + 1)
        else throw_at_last "Expected ',' or ']' after an array element"

/-- The source's `parse_inline_table` up to entering its pair loop. -/
def parse_inline_table : Nat → PM Unit
  | 0 => fun _ => .outOfFuel
  | fuel + 1 => do
    let _ ← input_get
    emit .start_inline_table
    skip_spaces
    let p ← input_peek
    if p = some '}' then do
      let _ ← input_get
      emit (.finish_inline_table 0)
    else parse_inline_table_loop fuel 0

/-- Pair loop of the source's `parse_inline_table`. -/
def parse_inline_table_loop : Nat → Nat → PM Unit
  | 0, _ => fun _ => .outOfFuel
  | fuel + 1, size => do
    let k ← parse_key fuel
    emit (.key k)
    skip_spaces
    let _ ← parse_chars ['=']
    skip_spaces
    let _ ← parse_value fuel
    skip_spaces
    let ch ← input_get
    if ch = '}' then emit (.finish_inline_table (size + 1))
    else if ch = ',' then do
      skip_spaces
      parse_inline_table_loop fuel (size + 1)
    else throw_at_last "Expected ',' or '\x7d' after an inline table element"

end

/-- Segment loop of the source's `parse_table_header`: parse dot-separated
key segments until the closing bracket. -/
def parse_table_header_loop : Nat → Bool → List (List Char) → PM (List (List Char))
  | 0, _, _ => fun _ => .outOfFuel
  | fuel + 1, array_item, path => do
    skip_spaces
    let k ← parse_key fuel
    skip_spaces
    let p ← input_peek
    if p = some ']' then do
      let _ ← input_get
      if array_item then do
        let _ ← parse_chars [']']
        pure (path ++ [k])
      else pure (path ++ [k])
    else do
      let _ ← parse_chars ['.']
      parse_table_header_loop fuel array_item (path ++ [k])

/-- The source's `parse_table_header`: `[` (doubled for an
array-of-tables item), dot-separated segments, closing bracket(s), then
deliver the path. -/
def parse_table_header (fuel : Nat) : PM Unit := do
  let _ ← input_get
  let p ← input_peek
  if p = some '[' then do
    let _ ← input_get
    let path ← parse_table_header_loop fuel true []
    emit (.array_table path)
  else do
    let path ← parse_table_header_loop fuel false []
    emit (.table path)

/-- The source's `parse_kv_pair`: key, `=`, value. -/
def parse_kv_pair (fuel : Nat) : PM Unit := do
  let k ← parse_key fuel
  emit (.key k)
  skip_spaces
  let _ ← parse_chars ['=']
  skip_spaces
  let _ ← parse_value fuel
  pure ()

/-- The source's `parse_expression`: after skipping spaces classify the
line by lookahead — empty, comment, table header or key-value pair, the
latter two with an optional trailing comment. -/
def parse_expression (fuel : Nat) : PM Unit := do
  skip_spaces
  let e ← input_eof
  if e then pure ()
  else do
    let p ← input_peek
    if p = some cr_c ∨ p = some lf_c then pure ()
    else if p = some '#' then parse_comment
    else if p = some '[' then do
      parse_table_header fuel
      skip_spaces
      let e2 ← input_eof
      let p2 ← input_peek
      if ¬ e2 ∧ p2 = some '#' then parse_comment else pure ()
    else do
      parse_kv_pair fuel
      skip_spaces
      let e2 ← input_eof
      let p2 ← input_peek
      if ¬ e2 ∧ p2 = some '#' then parse_comment else pure ()

/-- Top-level loop of the source's `parse`: while input remains, consume
one line terminator and parse the next expression. -/
def parse_toplevel_loop : Nat → PM Unit
  | 0 => fun _ => .outOfFuel
  | fuel + 1 => do
    let e ← input_eof
    if e then pure ()
    else do
      parse_new_line
      parse_expression fuel
      parse_toplevel_loop fuel

/-- The source's `parse`: bracket the whole run with `start_document` and
`finish_document`. -/
def parse (fuel : Nat) : PM Unit := do
  emit .start_document
  parse_expression fuel
  parse_toplevel_loop fuel
  emit .finish_document

/-- Initial parser state over a given input. -/
def init_state (input : List Char) : PState := ⟨input, 0, []⟩

/-- Scalar value events: the five scalar kinds the value dispatcher can
deliver. -/
inductive ScalarEv : Event → Prop where
  | string (s : List Char) : ScalarEv (.string s)
  | integer (i : Int) : ScalarEv (.integer i)
  | floating_point (t : List Char) : ScalarEv (.floating_point t)
  | boolean (b : Bool) : ScalarEv (.boolean b)
  | symbol (s : List Char) : ScalarEv (.symbol s)

/-- A list of events that are all comments (the events
`skip_spaces_and_empty_lines` may deliver between array elements). -/
def CommentsOnly (l : List Event) : Prop := ∀ e ∈ l, ∃ c, e = Event.comment c

mutual

/-- Event sequences forming exactly one complete value: a scalar event,
or a properly bracketed array or inline table whose finish count equals
the number of elements or pairs directly inside. -/
inductive ValueEvs : List Event → Prop where
  | scalar (e : Event) (h : ScalarEv e) : ValueEvs [e]
  | array (es : List Event) (n : Nat) (h : ArrayElems es n) :
      ValueEvs (Event.start_array :: (es ++ [Event.finish_array n]))
  | itable (es : List Event) (n : Nat) (h : TablePairs es n) :
      ValueEvs (Event.start_inline_table :: (es ++ [Event.finish_inline_table n]))

/-- Event sequences between `start_array` and `finish_array`: `n` counts
the complete element values; comment events delivered between elements
are not counted. -/
inductive ArrayElems : List Event → Nat → Prop where
  | nil : ArrayElems [] 0
  | comment (c : List Char) (es : List Event) (n : Nat) (h : ArrayElems es n) :
      ArrayElems (Event.comment c :: es) n
  | elem (v es : List Event) (n : Nat) (hv : ValueEvs v) (h : ArrayElems es n) :
      ArrayElems (v ++ es) (n + 1)

/-- Event sequences between `start_inline_table` and
`finish_inline_table`: `n` key-value pairs, each a key event followed by
one complete value. -/
inductive TablePairs : List Event → Nat → Prop where
  | nil : TablePairs [] 0
  | pair (k : List Char) (v es : List Event) (n : Nat) (hv : ValueEvs v) (h : TablePairs es n) :
      TablePairs (Event.key k :: (v ++ es)) (n + 1)

end

/-- Top-level event sequences between `start_document` and
`finish_document`: comments, table and array-table headers, and key-value
pairs, with no document events inside. -/
inductive TopItems : List Event → Prop where
  | nil : TopItems []
  | comment (c : List Char) (es : List Event) (h : TopItems es) :
      TopItems (Event.comment c :: es)
  | table (p : List (List Char)) (es : List Event) (h : TopItems es) :
      TopItems (Event.table p :: es)
  | array_table (p : List (List Char)) (es : List Event) (h : TopItems es) :
      TopItems (Event.array_table p :: es)
  | kv (k : List Char) (v es : List Event) (hv : ValueEvs v) (h : TopItems es) :
      TopItems (Event.key k :: (v ++ es))

theorem PM_pure_apply {α : Type} (a : α) (st : PState) : (pure a : PM α) st = .ok a st := rfl

theorem PM_bind_apply {α β : Type} (x : PM α) (f : α → PM β) (st : PState) :
    (x >>= f) st = match x st with
      | .ok a st1 => f a st1
      | .err e => .err e
      | .outOfFuel => .outOfFuel := rfl

theorem bind_ok_iff {α β : Type} {x : PM α} {f : α → PM β} {st : PState} {b : β} {st2 : PState} :
    (x >>= f) st = .ok b st2 ↔ ∃ a st1, x st = .ok a st1 ∧ f a st1 = .ok b st2 := by
  rw [PM_bind_apply]
  cases hx : x st with
  | ok a st1 =>
    constructor
    · intro h
      exact ⟨a, st1, rfl, h⟩
    · rintro ⟨a2, st3, h1, h2⟩
      cases h1
      exact h2
  | err e => simp
  | outOfFuel => simp

theorem input_peek_apply (st : PState) : input_peek st = .ok st.rest.head? st := rfl

theorem input_eof_apply (st : PState) : input_eof st = .ok st.rest.isEmpty st := rfl

theorem get_processed_apply (st : PState) : get_processed st = .ok st.processed st := rfl

theorem get_last_char_offset_apply (st : PState) :
    get_last_char_offset st = .ok (last_char_offset st) st := rfl

theorem throwP_apply {α : Type} (e : ParseError) (st : PState) : (throwP e : PM α) st = .err e := rfl

theorem throw_at_last_apply {α : Type} (m : String) (st : PState) :
    (throw_at_last m : PM α) st = .err ⟨m, last_char_offset st⟩ := rfl

theorem input_get_ok {st : PState} {c : Char} {st2 : PState} (h : input_get st = .ok c st2) :
    st.rest = c :: st2.rest ∧ st2.processed = st.processed + 1 ∧ st2.events = st.events := by
  rcases st with ⟨rest, p, evs⟩
  cases rest with
  | nil => exact absurd h (by simp [input_get])
  | cons a r =>
    simp only [input_get] at h
    cases h
    simp

theorem emit_apply (e : Event) (st : PState) :
    emit e st = .ok () ⟨st.rest, st.processed, st.events ++ [e]⟩ := rfl

theorem skip_spaces_events {st : PState} {u : Unit} {st2 : PState}
    (h : skip_spaces st = .ok u st2) : st2.events = st.events := by
  simp only [skip_spaces] at h
  cases h
  rfl

theorem skip_isspace_run_events {st : PState} {u : Unit} {st2 : PState}
    (h : skip_isspace_run st = .ok u st2) : st2.events = st.events := by
  simp only [skip_isspace_run] at h
  cases h
  rfl

theorem scan_word_chars_events {st : PState} {w : List Char} {st2 : PState}
    (h : scan_word_chars st = .ok w st2) : st2.events = st.events := by
  simp only [scan_word_chars] at h
  cases h
  rfl

theorem scan_key_chars_events {st : PState} {w : List Char} {st2 : PState}
    (h : scan_key_chars st = .ok w st2) : st2.events = st.events := by
  simp only [scan_key_chars] at h
  cases h
  rfl

theorem lift_except_events {α : Type} {x : Except ParseError α} {st : PState} {a : α}
    {st2 : PState} (h : lift_except x st = .ok a st2) : st2 = st := by
  cases x with
  | ok v =>
    simp only [lift_except] at h
    cases h
    rfl
  | error e => exact absurd h (by simp [lift_except])

theorem parse_chars_events {l : List Char} {st : PState} {c : Char} {st2 : PState}
    (h : parse_chars l st = .ok c st2) : st2.events = st.events := by
  simp only [parse_chars] at h
  rw [bind_ok_iff] at h
  obtain ⟨a, st1, h1, h2⟩ := h
  have e1 := (input_get_ok h1).2.2
  split at h2
  · rw [PM_pure_apply] at h2
    cases h2
    exact e1
  · exact absurd h2 (by simp [throw_at_last_apply])

theorem parse_new_line_events {st : PState} {u : Unit} {st2 : PState}
    (h : parse_new_line st = .ok u st2) : st2.events = st.events := by
  simp only [parse_new_line] at h
  rw [bind_ok_iff] at h
  obtain ⟨a, st1, h1, h2⟩ := h
  have e1 := (input_get_ok h1).2.2
  split at h2 <;>
  · rw [bind_ok_iff] at h2
    obtain ⟨a2, st3, h3, h4⟩ := h2
    have e3 : st3.events = st1.events := by
      first
      | exact (input_get_ok h3).2.2
      | (rw [PM_pure_apply] at h3; cases h3; rfl)
    split at h4
    · rw [PM_pure_apply] at h4
      cases h4
      rw [e3, e1]
    · exact absurd h4 (by simp [throw_at_last_apply])

theorem parse_hex_digit_events {st : PState} {n : Nat} {st2 : PState}
    (h : parse_hex_digit st = .ok n st2) : st2.events = st.events := by
  simp only [parse_hex_digit] at h
  rw [bind_ok_iff] at h
  obtain ⟨a, st1, h1, h2⟩ := h
  have e1 := (input_get_ok h1).2.2
  split at h2
  · rw [PM_pure_apply] at h2
    cases h2
    exact e1
  · split at h2
    · rw [PM_pure_apply] at h2
      cases h2
      exact e1
    · split at h2
      · rw [PM_pure_apply] at h2
        cases h2
        exact e1
      · exact absurd h2 (by simp [throw_at_last_apply])

theorem parse_4_digit_codepoint_events {st : PState} {n : Nat} {st2 : PState}
    (h : parse_4_digit_codepoint st = .ok n st2) : st2.events = st.events := by
  simp only [parse_4_digit_codepoint] at h
  rw [bind_ok_iff] at h
  obtain ⟨d1, s1, h1, h⟩ := h
  rw [bind_ok_iff] at h
  obtain ⟨d2, s2, h2, h⟩ := h
  rw [bind_ok_iff] at h
  obtain ⟨d3, s3, h3, h⟩ := h
  rw [bind_ok_iff] at h
  obtain ⟨d4, s4, h4, h⟩ := h
  rw [PM_pure_apply] at h
  cases h
  rw [parse_hex_digit_events h4, parse_hex_digit_events h3,
    parse_hex_digit_events h2, parse_hex_digit_events h1]

theorem parse_8_digit_codepoint_events {st : PState} {n : Nat} {st2 : PState}
    (h : parse_8_digit_codepoint st = .ok n st2) : st2.events = st.events := by
  simp only [parse_8_digit_codepoint] at h
  rw [bind_ok_iff] at h
  obtain ⟨d1, s1, h1, h⟩ := h
  rw [bind_ok_iff] at h
  obtain ⟨d2, s2, h2, h⟩ := h
  rw [bind_ok_iff] at h
  obtain ⟨d3, s3, h3, h⟩ := h
  rw [bind_ok_iff] at h
  obtain ⟨d4, s4, h4, h⟩ := h
  rw [bind_ok_iff] at h
  obtain ⟨d5, s5, h5, h⟩ := h
  rw [bind_ok_iff] at h
  obtain ⟨d6, s6, h6, h⟩ := h
  rw [bind_ok_iff] at h
  obtain ⟨d7, s7, h7, h⟩ := h
  rw [bind_ok_iff] at h
  obtain ⟨d8, s8, h8, h⟩ := h
  rw [PM_pure_apply] at h
  cases h
  rw [parse_hex_digit_events h8, parse_hex_digit_events h7, parse_hex_digit_events h6,
    parse_hex_digit_events h5, parse_hex_digit_events h4, parse_hex_digit_events h3,
    parse_hex_digit_events h2, parse_hex_digit_events h1]

theorem ite_app_ok {α : Type} {c : Prop} [Decidable c] {A B : PM α} {st : PState} {r : α}
    {st2 : PState} (h : (if c then A else B) st = .ok r st2) :
    (c ∧ A st = .ok r st2) ∨ (¬ c ∧ B st = .ok r st2) := by
  by_cases hc : c
  · rw [if_pos hc] at h
    exact Or.inl ⟨hc, h⟩
  · rw [if_neg hc] at h
    exact Or.inr ⟨hc, h⟩

theorem parse_basic_string_events : ∀ {fuel : Nat} {acc : List Char} {st : PState}
    {s : List Char} {st2 : PState},
    parse_basic_string fuel acc st = .ok s st2 → st2.events = st.events := by
  intro fuel
  induction fuel with
  | zero =>
    intro acc st s st2 h
    rw [parse_basic_string.eq_1] at h
    simp at h
  | succ fuel ih =>
    intro acc st s st2 h
    rw [parse_basic_string.eq_2] at h
    rw [bind_ok_iff] at h
    obtain ⟨ch, st1, h1, h⟩ := h
    have e1 := (input_get_ok h1).2.2
    rcases ite_app_ok h with ⟨_, h⟩ | ⟨_, h⟩
    · exact absurd h (by simp [throw_at_last_apply])
    rcases ite_app_ok h with ⟨_, h⟩ | ⟨_, h⟩
    · rw [PM_pure_apply] at h
      cases h
      exact e1
    rcases ite_app_ok h with ⟨_, h⟩ | ⟨_, h⟩
    · rw [bind_ok_iff] at h
      obtain ⟨off, st3, h3, h⟩ := h
      rw [get_last_char_offset_apply] at h3
      cases h3
      rw [bind_ok_iff] at h
      obtain ⟨ch2, st4, h4, h⟩ := h
      have e4 := (input_get_ok h4).2.2
      rcases ite_app_ok h with ⟨_, h⟩ | ⟨_, h⟩
      · rw [ih h, e4, e1]
      rcases ite_app_ok h with ⟨_, h⟩ | ⟨_, h⟩
      · rw [ih h, e4, e1]
      rcases ite_app_ok h with ⟨_, h⟩ | ⟨_, h⟩
      · rw [ih h, e4, e1]
      rcases ite_app_ok h with ⟨_, h⟩ | ⟨_, h⟩
      · rw [ih h, e4, e1]
      rcases ite_app_ok h with ⟨_, h⟩ | ⟨_, h⟩
      · rw [ih h, e4, e1]
      rcases ite_app_ok h with ⟨_, h⟩ | ⟨_, h⟩
      · rw [ih h, e4, e1]
      rcases ite_app_ok h with ⟨_, h⟩ | ⟨_, h⟩
      · rw [ih h, e4, e1]
      rcases ite_app_ok h with ⟨_, h⟩ | ⟨_, h⟩
      · rw [bind_ok_iff] at h
        obtain ⟨cp, st5, h5, h⟩ := h
        have e5 := parse_4_digit_codepoint_events h5
        rw [bind_ok_iff] at h
        obtain ⟨acc2, st6, h6, h⟩ := h
        rw [lift_except_events h6] at h
        rw [ih h, e5, e4, e1]
      rcases ite_app_ok h with ⟨_, h⟩ | ⟨_, h⟩
      · rw [bind_ok_iff] at h
        obtain ⟨cp, st5, h5, h⟩ := h
        have e5 := parse_8_digit_codepoint_events h5
        rw [bind_ok_iff] at h
        obtain ⟨acc2, st6, h6, h⟩ := h
        rw [lift_except_events h6] at h
        rw [ih h, e5, e4, e1]
      · exact absurd h (by simp [throwP_apply])
    · rw [ih h, e1]

theorem parse_multiline_loop_events : ∀ {fuel : Nat} {acc : List Char} {st : PState}
    {s : List Char} {st2 : PState},
    parse_multiline_loop fuel acc st = .ok s st2 → st2.events = st.events := by
  intro fuel
  induction fuel with
  | zero =>
    intro acc st s st2 h
    rw [parse_multiline_loop.eq_1] at h
    simp at h
  | succ fuel ih =>
    intro acc st s st2 h
    rw [parse_multiline_loop.eq_2] at h
    rw [bind_ok_iff] at h
    obtain ⟨p, st0, h0, h⟩ := h
    rw [input_peek_apply] at h0
    cases h0
    rcases ite_app_ok h with ⟨_, h⟩ | ⟨_, h⟩
    · rw [bind_ok_iff] at h
      obtain ⟨u, st1, h1, h⟩ := h
      have e1 := parse_new_line_events h1
      rw [ih h, e1]
    · rw [bind_ok_iff] at h
      obtain ⟨ch, st1, h1, h⟩ := h
      have e1 := (input_get_ok h1).2.2
      rcases ite_app_ok h with ⟨_, h⟩ | ⟨_, h⟩
      · exact absurd h (by simp [throw_at_last_apply])
      rcases ite_app_ok h with ⟨_, h⟩ | ⟨_, h⟩
      · rw [bind_ok_iff] at h
        obtain ⟨p2, st3, h3, h⟩ := h
        rw [input_peek_apply] at h3
        cases h3
        rcases ite_app_ok h with ⟨_, h⟩ | ⟨_, h⟩
        · rw [bind_ok_iff] at h
          obtain ⟨c3, st4, h4, h⟩ := h
          have e4 := (input_get_ok h4).2.2
          rw [bind_ok_iff] at h
          obtain ⟨p3, st5, h5, h⟩ := h
          rw [input_peek_apply] at h5
          cases h5
          rcases ite_app_ok h with ⟨_, h⟩ | ⟨_, h⟩
          · rw [bind_ok_iff] at h
            obtain ⟨c5, st6, h6, h⟩ := h
            have e6 := (input_get_ok h6).2.2
            rw [PM_pure_apply] at h
            cases h
            rw [e6, e4, e1]
          · rw [ih h, e4, e1]
        · rw [ih h, e1]
      rcases ite_app_ok h with ⟨_, h⟩ | ⟨_, h⟩
      · rw [bind_ok_iff] at h
        obtain ⟨p2, st3, h3, h⟩ := h
        rw [input_peek_apply] at h3
        cases h3
        rcases ite_app_ok h with ⟨_, h⟩ | ⟨_, h⟩
        · rw [bind_ok_iff] at h
          obtain ⟨u, st4, h4, h⟩ := h
          have e4 := parse_new_line_events h4
          rw [bind_ok_iff] at h
          obtain ⟨u2, st5, h5, h⟩ := h
          have e5 := skip_isspace_run_events h5
          rw [ih h, e5, e4, e1]
        · rw [bind_ok_iff] at h
          obtain ⟨off, st3b, h3b, h⟩ := h
          rw [get_last_char_offset_apply] at h3b
          cases h3b
          rw [bind_ok_iff] at h
          obtain ⟨ch2, st4, h4, h⟩ := h
          have e4 := (input_get_ok h4).2.2
          rcases ite_app_ok h with ⟨_, h⟩ | ⟨_, h⟩
          · rw [ih h, e4, e1]
          rcases ite_app_ok h with ⟨_, h⟩ | ⟨_, h⟩
          · rw [ih h, e4, e1]
          rcases ite_app_ok h with ⟨_, h⟩ | ⟨_, h⟩
          · rw [ih h, e4, e1]
          rcases ite_app_ok h with ⟨_, h⟩ | ⟨_, h⟩
          · rw [ih h, e4, e1]
          rcases ite_app_ok h with ⟨_, h⟩ | ⟨_, h⟩
          · rw [ih h, e4, e1]
          rcases ite_app_ok h with ⟨_, h⟩ | ⟨_, h⟩
          · rw [ih h, e4, e1]
          rcases ite_app_ok h with ⟨_, h⟩ | ⟨_, h⟩
          · rw [ih h, e4, e1]
          rcases ite_app_ok h with ⟨_, h⟩ | ⟨_, h⟩
          · rw [bind_ok_iff] at h
            obtain ⟨cp, st5, h5, h⟩ := h
            have e5 := parse_4_digit_codepoint_events h5
            rw [bind_ok_iff] at h
            obtain ⟨acc2, st6, h6, h⟩ := h
            rw [lift_except_events h6] at h
            rw [ih h, e5, e4, e1]
          rcases ite_app_ok h with ⟨_, h⟩ | ⟨_, h⟩
          · rw [bind_ok_iff] at h
            obtain ⟨cp, st5, h5, h⟩ := h
            have e5 := parse_8_digit_codepoint_events h5
            rw [bind_ok_iff] at h
            obtain ⟨acc2, st6, h6, h⟩ := h
            rw [lift_except_events h6] at h
            rw [ih h, e5, e4, e1]
          · exact absurd h (by simp [throwP_apply])
      · rw [ih h, e1]

theorem parse_multiline_string_events {fuel : Nat} {st : PState} {s : List Char} {st2 : PState}
    (h : parse_multiline_string fuel st = .ok s st2) : st2.events = st.events := by
  simp only [parse_multiline_string] at h
  rw [bind_ok_iff] at h
  obtain ⟨p, st0, h0, h⟩ := h
  rw [input_peek_apply] at h0
  cases h0
  rcases ite_app_ok h with ⟨_, h⟩ | ⟨_, h⟩ <;>
  · rw [bind_ok_iff] at h
    obtain ⟨u, st1, h1, h⟩ := h
    have e1 : st1.events = st.events := by
      first
      | exact parse_new_line_events h1
      | (rw [PM_pure_apply] at h1; cases h1; rfl)
    rw [parse_multiline_loop_events h, e1]

theorem parse_literal_loop_events : ∀ {fuel : Nat} {acc : List Char} {st : PState}
    {s : List Char} {st2 : PState},
    parse_literal_loop fuel acc st = .ok s st2 → st2.events = st.events := by
  intro fuel
  induction fuel with
  | zero =>
    intro acc st s st2 h
    rw [parse_literal_loop.eq_1] at h
    simp at h
  | succ fuel ih =>
    intro acc st s st2 h
    rw [parse_literal_loop.eq_2] at h
    rw [bind_ok_iff] at h
    obtain ⟨ch, st1, h1, h⟩ := h
    have e1 := (input_get_ok h1).2.2
    rcases ite_app_ok h with ⟨_, h⟩ | ⟨_, h⟩
    · exact absurd h (by simp [throw_at_last_apply])
    rcases ite_app_ok h with ⟨_, h⟩ | ⟨_, h⟩
    · rw [PM_pure_apply] at h
      cases h
      exact e1
    · rw [ih h, e1]

theorem parse_multiline_literal_loop_events : ∀ {fuel : Nat} {acc : List Char} {st : PState}
    {s : List Char} {st2 : PState},
    parse_multiline_literal_loop fuel acc st = .ok s st2 → st2.events = st.events := by
  intro fuel
  induction fuel with
  | zero =>
    intro acc st s st2 h
    rw [parse_multiline_literal_loop.eq_1] at h
    simp at h
  | succ fuel ih =>
    intro acc st s st2 h
    rw [parse_multiline_literal_loop.eq_2] at h
    rw [bind_ok_iff] at h
    obtain ⟨p, st0, h0, h⟩ := h
    rw [input_peek_apply] at h0
    cases h0
    rcases ite_app_ok h with ⟨_, h⟩ | ⟨_, h⟩
    · rw [bind_ok_iff] at h
      obtain ⟨u, st1, h1, h⟩ := h
      have e1 := parse_new_line_events h1
      rw [ih h, e1]
    · rw [bind_ok_iff] at h
      obtain ⟨ch, st1, h1, h⟩ := h
      have e1 := (input_get_ok h1).2.2
      rcases ite_app_ok h with ⟨_, h⟩ | ⟨_, h⟩
      · rw [bind_ok_iff] at h
        obtain ⟨p2, st3, h3, h⟩ := h
        rw [input_peek_apply] at h3
        cases h3
        rcases ite_app_ok h with ⟨_, h⟩ | ⟨_, h⟩
        · rw [bind_ok_iff] at h
          obtain ⟨c3, st4, h4, h⟩ := h
          have e4 := (input_get_ok h4).2.2
          rw [bind_ok_iff] at h
          obtain ⟨p3, st5, h5, h⟩ := h
          rw [input_peek_apply] at h5
          cases h5
          rcases ite_app_ok h with ⟨_, h⟩ | ⟨_, h⟩
          · rw [bind_ok_iff] at h
            obtain ⟨c5, st6, h6, h⟩ := h
            have e6 := (input_get_ok h6).2.2
            rw [PM_pure_apply] at h
            cases h
            rw [e6, e4, e1]
          · rw [ih h, e4, e1]
        · rw [ih h, e1]
      rcases ite_app_ok h with ⟨_, h⟩ | ⟨_, h⟩
      · exact absurd h (by simp [throw_at_last_apply])
      · rw [ih h, e1]

theorem emit_ok {e : Event} {st : PState} {u : Unit} {st2 : PState}
    (h : emit e st = .ok u st2) : st2.events = st.events ++ [e] := by
  rw [emit_apply] at h
  cases h
  rfl

theorem comment_rest_events {st : PState} {u : Unit} {st2 : PState}
    (h : comment_rest st = .ok u st2) :
    ∃ c, st2.events = st.events ++ [Event.comment c] := by
  simp only [comment_rest] at h
  cases hd : st.rest.dropWhile comment_char with
  | nil =>
    rw [hd] at h
    simp at h
  | cons a r =>
    rw [hd] at h
    cases h
    exact ⟨_, rfl⟩

theorem parse_comment_events {st : PState} {u : Unit} {st2 : PState}
    (h : parse_comment st = .ok u st2) :
    ∃ c, st2.events = st.events ++ [Event.comment c] := by
  simp only [parse_comment] at h
  rw [bind_ok_iff] at h
  obtain ⟨a, st1, h1, h⟩ := h
  have e1 := (input_get_ok h1).2.2
  obtain ⟨c, hc⟩ := comment_rest_events h
  exact ⟨c, by rw [hc, e1]⟩

theorem parse_key_events {fuel : Nat} {st : PState} {k : List Char} {st2 : PState}
    (h : parse_key fuel st = .ok k st2) : st2.events = st.events := by
  simp only [parse_key] at h
  rw [bind_ok_iff] at h
  obtain ⟨p, st0, h0, h⟩ := h
  rw [input_peek_apply] at h0
  cases h0
  rcases ite_app_ok h with ⟨_, h⟩ | ⟨_, h⟩
  · rw [bind_ok_iff] at h
    obtain ⟨c0, st1, h1, h⟩ := h
    have e1 := (input_get_ok h1).2.2
    rw [bind_ok_iff] at h
    obtain ⟨key, st3, h3, h⟩ := h
    have e3 := parse_basic_string_events h3
    rcases ite_app_ok h with ⟨_, h⟩ | ⟨_, h⟩
    · exact absurd h (by simp [throw_at_last_apply])
    · rw [PM_pure_apply] at h
      cases h
      rw [e3, e1]
  · rw [bind_ok_iff] at h
    obtain ⟨ch, st1, h1, h⟩ := h
    have e1 := (input_get_ok h1).2.2
    rcases ite_app_ok h with ⟨_, h⟩ | ⟨_, h⟩
    · exact absurd h (by simp [throw_at_last_apply])
    · rw [bind_ok_iff] at h
      obtain ⟨ks, st3, h3, h⟩ := h
      have e3 := scan_key_chars_events h3
      rw [PM_pure_apply] at h
      cases h
      rw [e3, e1]

theorem parse_string_events {fuel : Nat} {st : PState} {u : Unit} {st2 : PState}
    (h : parse_string fuel st = .ok u st2) :
    ∃ s, st2.events = st.events ++ [Event.string s] := by
  simp only [parse_string] at h
  rw [bind_ok_iff] at h
  obtain ⟨c0, st1, h1, h⟩ := h
  have e1 := (input_get_ok h1).2.2
  rw [bind_ok_iff] at h
  obtain ⟨p, st1b, h1b, h⟩ := h
  rw [input_peek_apply] at h1b
  cases h1b
  rcases ite_app_ok h with ⟨_, h⟩ | ⟨_, h⟩
  · rw [bind_ok_iff] at h
    obtain ⟨c2, st3, h3, h⟩ := h
    have e3 := (input_get_ok h3).2.2
    rw [bind_ok_iff] at h
    obtain ⟨p2, st3b, h3b, h⟩ := h
    rw [input_peek_apply] at h3b
    cases h3b
    rcases ite_app_ok h with ⟨_, h⟩ | ⟨_, h⟩
    · rw [bind_ok_iff] at h
      obtain ⟨c4, st5, h5, h⟩ := h
      have e5 := (input_get_ok h5).2.2
      rw [bind_ok_iff] at h
      obtain ⟨s, st6, h6, h⟩ := h
      have e6 := parse_multiline_string_events h6
      refine ⟨s, ?_⟩
      rw [emit_ok h, e6, e5, e3, e1]
    · refine ⟨[], ?_⟩
      rw [emit_ok h, e3, e1]
  · rw [bind_ok_iff] at h
    obtain ⟨s, st3, h3, h⟩ := h
    have e3 := parse_basic_string_events h3
    refine ⟨s, ?_⟩
    rw [emit_ok h, e3, e1]

theorem parse_literal_string_events {fuel : Nat} {st : PState} {u : Unit} {st2 : PState}
    (h : parse_literal_string fuel st = .ok u st2) :
    ∃ s, st2.events = st.events ++ [Event.string s] := by
  simp only [parse_literal_string] at h
  rw [bind_ok_iff] at h
  obtain ⟨c0, st1, h1, h⟩ := h
  have e1 := (input_get_ok h1).2.2
  rw [bind_ok_iff] at h
  obtain ⟨p, st1b, h1b, h⟩ := h
  rw [input_peek_apply] at h1b
  cases h1b
  rcases ite_app_ok h with ⟨_, h⟩ | ⟨_, h⟩
  · rw [bind_ok_iff] at h
    obtain ⟨c2, st3, h3, h⟩ := h
    have e3 := (input_get_ok h3).2.2
    rw [bind_ok_iff] at h
    obtain ⟨p2, st3b, h3b, h⟩ := h
    rw [input_peek_apply] at h3b
    cases h3b
    rcases ite_app_ok h with ⟨_, h⟩ | ⟨_, h⟩
    · rw [bind_ok_iff] at h
      obtain ⟨c4, st5, h5, h⟩ := h
      have e5 := (input_get_ok h5).2.2
      rw [bind_ok_iff] at h
      obtain ⟨p3, st5b, h5b, h⟩ := h
      rw [input_peek_apply] at h5b
      cases h5b
      rcases ite_app_ok h with ⟨_, h⟩ | ⟨_, h⟩ <;>
      · rw [bind_ok_iff] at h
        obtain ⟨u2, st6, h6, h⟩ := h
        have e6 : st6.events = st5.events := by
          first
          | exact parse_new_line_events h6
          | (rw [PM_pure_apply] at h6; cases h6; rfl)
        rw [bind_ok_iff] at h
        obtain ⟨s, st7, h7, h⟩ := h
        have e7 := parse_multiline_literal_loop_events h7
        refine ⟨s, ?_⟩
        rw [emit_ok h, e7, e6, e5, e3, e1]
    · refine ⟨[], ?_⟩
      rw [emit_ok h, e3, e1]
  · rw [bind_ok_iff] at h
    obtain ⟨s, st3, h3, h⟩ := h
    have e3 := parse_literal_loop_events h3
    refine ⟨s, ?_⟩
    rw [emit_ok h, e3, e1]

theorem parse_bool_or_number_or_symbol_events {st : PState} {t : toml_type_t} {st2 : PState}
    (h : parse_bool_or_number_or_symbol st = .ok t st2) :
    ∃ e, ScalarEv e ∧ st2.events = st.events ++ [e] := by
  simp only [parse_bool_or_number_or_symbol] at h
  rw [bind_ok_iff] at h
  obtain ⟨ch, st1, h1, h⟩ := h
  have e1 := (input_get_ok h1).2.2
  rcases ite_app_ok h with ⟨_, h⟩ | ⟨_, h⟩
  · exact absurd h (by simp [throw_at_last_apply])
  rw [bind_ok_iff] at h
  obtain ⟨tw, st3, h3, h⟩ := h
  have e3 := scan_word_chars_events h3
  rcases ite_app_ok h with ⟨_, h⟩ | ⟨_, h⟩
  · rw [bind_ok_iff] at h
    obtain ⟨u, st4, h4, h⟩ := h
    rw [PM_pure_apply] at h
    cases h
    exact ⟨_, ScalarEv.boolean true, by rw [emit_ok h4, e3, e1]⟩
  rcases ite_app_ok h with ⟨_, h⟩ | ⟨_, h⟩
  · rw [bind_ok_iff] at h
    obtain ⟨u, st4, h4, h⟩ := h
    rw [PM_pure_apply] at h
    cases h
    exact ⟨_, ScalarEv.boolean false, by rw [emit_ok h4, e3, e1]⟩
  rcases ite_app_ok h with ⟨_, h⟩ | ⟨_, h⟩
  · rcases ite_app_ok h with ⟨_, h⟩ | ⟨_, h⟩
    · rw [bind_ok_iff] at h
      obtain ⟨u, st4, h4, h⟩ := h
      rw [PM_pure_apply] at h
      cases h
      exact ⟨_, ScalarEv.integer _, by rw [emit_ok h4, e3, e1]⟩
    · exact absurd h (by simp [throwP_apply])
  rcases ite_app_ok h with ⟨_, h⟩ | ⟨_, h⟩
  · rw [bind_ok_iff] at h
    obtain ⟨u, st4, h4, h⟩ := h
    rw [PM_pure_apply] at h
    cases h
    exact ⟨_, ScalarEv.floating_point _, by rw [emit_ok h4, e3, e1]⟩
  rcases ite_app_ok h with ⟨_, h⟩ | ⟨_, h⟩
  · rw [bind_ok_iff] at h
    obtain ⟨u, st4, h4, h⟩ := h
    rw [PM_pure_apply] at h
    cases h
    exact ⟨_, ScalarEv.symbol _, by rw [emit_ok h4, e3, e1]⟩
  · exact absurd h (by simp [throwP_apply])

theorem skip_spaces_and_empty_lines_events : ∀ {fuel : Nat} {st : PState} {u : Unit}
    {st2 : PState}, skip_spaces_and_empty_lines fuel st = .ok u st2 →
    ∃ cs, st2.events = st.events ++ cs ∧ CommentsOnly cs := by
  intro fuel
  induction fuel with
  | zero =>
    intro st u st2 h
    rw [skip_spaces_and_empty_lines.eq_1] at h
    simp at h
  | succ fuel ih =>
    intro st u st2 h
    rw [skip_spaces_and_empty_lines.eq_2] at h
    rw [bind_ok_iff] at h
    obtain ⟨e, st0, h0, h⟩ := h
    rw [input_eof_apply] at h0
    cases h0
    rcases ite_app_ok h with ⟨_, h⟩ | ⟨_, h⟩
    · rw [PM_pure_apply] at h
      cases h
      exact ⟨[], by simp, by intro e he; cases he⟩
    rw [bind_ok_iff] at h
    obtain ⟨u1, st1, h1, h⟩ := h
    have e1 := skip_spaces_events h1
    rw [bind_ok_iff] at h
    obtain ⟨p, st1b, h1b, h⟩ := h
    rw [input_peek_apply] at h1b
    cases h1b
    rcases ite_app_ok h with ⟨_, h⟩ | ⟨_, h⟩
    · rw [bind_ok_iff] at h
      obtain ⟨u2, st3, h3, h⟩ := h
      obtain ⟨c, hc⟩ := parse_comment_events h3
      rw [bind_ok_iff] at h
      obtain ⟨u3, st4, h4, h⟩ := h
      have e4 := parse_new_line_events h4
      obtain ⟨cs, hcs, honly⟩ := ih h
      refine ⟨Event.comment c :: cs, ?_, ?_⟩
      · rw [hcs, e4, hc, e1]
        simp
      · intro ev hev
        cases hev with
        | head => exact ⟨c, rfl⟩
        | tail _ htl => exact honly ev htl
    rcases ite_app_ok h with ⟨_, h⟩ | ⟨_, h⟩
    · rw [bind_ok_iff] at h
      obtain ⟨u2, st3, h3, h⟩ := h
      have e3 := parse_new_line_events h3
      obtain ⟨cs, hcs, honly⟩ := ih h
      exact ⟨cs, by rw [hcs, e3, e1], honly⟩
    · rw [PM_pure_apply] at h
      cases h
      exact ⟨[], by simp [e1], by intro e he; cases he⟩

theorem CommentsOnly_nil : CommentsOnly [] := by
  intro e he
  cases he

theorem ArrayElems_comments_prepend : ∀ {cs : List Event}, CommentsOnly cs →
    ∀ {es : List Event} {n : Nat}, ArrayElems es n → ArrayElems (cs ++ es) n := by
  intro cs
  induction cs with
  | nil =>
    intro _ es n h
    exact h
  | cons c rest ih =>
    intro honly es n h
    obtain ⟨txt, rfl⟩ := honly c (List.mem_cons_self c rest)
    exact ArrayElems.comment txt _ _ (ih (fun e he => honly e (List.mem_cons_of_mem _ he)) h)

theorem TopItems_append : ∀ {a : List Event}, TopItems a → ∀ {b : List Event}, TopItems b →
    TopItems (a ++ b) := by
  intro a ha
  induction ha with
  | nil =>
    intro b hb
    exact hb
  | comment c es _ ih =>
    intro b hb
    exact TopItems.comment c _ (ih hb)
  | table p es _ ih =>
    intro b hb
    exact TopItems.table p _ (ih hb)
  | array_table p es _ ih =>
    intro b hb
    exact TopItems.array_table p _ (ih hb)
  | kv k v es hv _ ih =>
    intro b hb
    have := TopItems.kv k v _ hv (ih hb)
    simpa [List.append_assoc] using this


theorem ArrayElems_comments {cs : List Event} (h : CommentsOnly cs) : ArrayElems cs 0 := by
  have := ArrayElems_comments_prepend h ArrayElems.nil
  simpa using this

theorem grammar_events_spec : ∀ fuel : Nat,
    (∀ st t st2, parse_value fuel st = .ok t st2 →
        ∃ v, st2.events = st.events ++ v ∧ ValueEvs v) ∧
    (∀ st u st2, parse_array fuel st = .ok u st2 →
        ∃ v, st2.events = st.events ++ v ∧ ValueEvs v) ∧
    (∀ ty size st u st2, parse_array_loop fuel ty size st = .ok u st2 →
        ∃ es k, st2.events = st.events ++ (es ++ [Event.finish_array (size + k)]) ∧
          ArrayElems es k) ∧
    (∀ st u st2, parse_inline_table fuel st = .ok u st2 →
        ∃ v, st2.events = st.events ++ v ∧ ValueEvs v) ∧
    (∀ size st u st2, parse_inline_table_loop fuel size st = .ok u st2 →
        ∃ es k, st2.events = st.events ++ (es ++ [Event.finish_inline_table (size + k)]) ∧
          TablePairs es k) := by
  intro fuel
  induction fuel with
  | zero =>
    refine ⟨?_, ?_, ?_, ?_, ?_⟩
    · intro st t st2 h
      rw [parse_value.eq_1] at h
      simp at h
    · intro st u st2 h
      rw [parse_array.eq_1] at h
      simp at h
    · intro ty size st u st2 h
      rw [parse_array_loop.eq_1] at h
      simp at h
    · intro st u st2 h
      rw [parse_inline_table.eq_1] at h
      simp at h
    · intro size st u st2 h
      rw [parse_inline_table_loop.eq_1] at h
      simp at h
  | succ fuel ih =>
    obtain ⟨ihv, iha, ihal, ihit, ihitl⟩ := ih
    refine ⟨?_, ?_, ?_, ?_, ?_⟩
    · -- parse_value
      intro st t st2 h
      rw [parse_value.eq_2] at h
      rw [bind_ok_iff] at h
      obtain ⟨p, st0, h0, h⟩ := h
      rw [input_peek_apply] at h0
      cases h0
      rcases ite_app_ok h with ⟨_, h⟩ | ⟨_, h⟩
      · rw [bind_ok_iff] at h
        obtain ⟨u, st1, h1, h⟩ := h
        rw [PM_pure_apply] at h
        cases h
        exact ihit _ _ _ h1
      rcases ite_app_ok h with ⟨_, h⟩ | ⟨_, h⟩
      · rw [bind_ok_iff] at h
        obtain ⟨u, st1, h1, h⟩ := h
        rw [PM_pure_apply] at h
        cases h
        exact iha _ _ _ h1
      rcases ite_app_ok h with ⟨_, h⟩ | ⟨_, h⟩
      · rw [bind_ok_iff] at h
        obtain ⟨u, st1, h1, h⟩ := h
        rw [PM_pure_apply] at h
        cases h
        obtain ⟨s, hs⟩ := parse_string_events h1
        exact ⟨[Event.string s], hs, ValueEvs.scalar _ (ScalarEv.string s)⟩
      rcases ite_app_ok h with ⟨_, h⟩ | ⟨_, h⟩
      · rw [bind_ok_iff] at h
        obtain ⟨u, st1, h1, h⟩ := h
        rw [PM_pure_apply] at h
        cases h
        obtain ⟨s, hs⟩ := parse_literal_string_events h1
        exact ⟨[Event.string s], hs, ValueEvs.scalar _ (ScalarEv.string s)⟩
      · obtain ⟨e, he, hev⟩ := parse_bool_or_number_or_symbol_events h
        exact ⟨[e], hev, ValueEvs.scalar e he⟩
    · -- parse_array
      intro st u st2 h
      rw [parse_array.eq_2] at h
      rw [bind_ok_iff] at h
      obtain ⟨c0, st1, h1, h⟩ := h
      have e1 := (input_get_ok h1).2.2
      rw [bind_ok_iff] at h
      obtain ⟨u2, st3, h3, h⟩ := h
      have e3 := emit_ok h3
      rw [bind_ok_iff] at h
      obtain ⟨u4, st4, h4, h⟩ := h
      obtain ⟨cs0, hcs0, honly0⟩ := skip_spaces_and_empty_lines_events h4
      obtain ⟨es, k, hev, harr⟩ := ihal none 0 st4 u st2 h
      refine ⟨Event.start_array :: ((cs0 ++ es) ++ [Event.finish_array (0 + k)]), ?_, ?_⟩
      · rw [hev, hcs0, e3, e1]
        simp [List.append_assoc]
      · rw [Nat.zero_add]
        exact ValueEvs.array _ _ (ArrayElems_comments_prepend honly0 harr)
    · -- parse_array_loop
      intro ty size st u st2 h
      rw [parse_array_loop.eq_2] at h
      rw [bind_ok_iff] at h
      obtain ⟨p, st0, h0, h⟩ := h
      rw [input_peek_apply] at h0
      cases h0
      rcases ite_app_ok h with ⟨_, h⟩ | ⟨_, h⟩
      · rw [bind_ok_iff] at h
        obtain ⟨c1, st1, h1, h⟩ := h
        have e1 := (input_get_ok h1).2.2
        have e2 := emit_ok h
        refine ⟨[], 0, ?_, ArrayElems.nil⟩
        rw [e2, e1]
        simp
      · rw [bind_ok_iff] at h
        obtain ⟨off, stb, hb, h⟩ := h
        rw [get_processed_apply] at hb
        cases hb
        rw [bind_ok_iff] at h
        obtain ⟨t, st1, h1, h⟩ := h
        obtain ⟨v, hv, hvv⟩ := ihv _ _ _ h1
        rcases ite_app_ok h with ⟨_, h⟩ | ⟨_, h⟩
        · exact absurd h (by simp [throwP_apply])
        rw [bind_ok_iff] at h
        obtain ⟨u2, st3, h3, h⟩ := h
        obtain ⟨cs1, hcs1, honly1⟩ := skip_spaces_and_empty_lines_events h3
        rw [bind_ok_iff] at h
        obtain ⟨ch, st4, h4, h⟩ := h
        have e4 := (input_get_ok h4).2.2
        rcases ite_app_ok h with ⟨_, h⟩ | ⟨_, h⟩
        · have e5 := emit_ok h
          refine ⟨v ++ cs1, 1, ?_, ?_⟩
          · rw [e5, e4, hcs1, hv]
            simp [List.append_assoc]
          · exact ArrayElems.elem v cs1 0 hvv (ArrayElems_comments honly1)
        rcases ite_app_ok h with ⟨_, h⟩ | ⟨_, h⟩
        · rw [bind_ok_iff] at h
          obtain ⟨u3, st5, h5, h⟩ := h
          obtain ⟨cs2, hcs2, honly2⟩ := skip_spaces_and_empty_lines_events h5
          obtain ⟨es2, k2, hev2, harr2⟩ := ihal (some t) (size + 1) st5 u st2 h
          refine ⟨v ++ (cs1 ++ (cs2 ++ es2)), k2 + 1, ?_, ?_⟩
          · rw [hev2, hcs2, e4, hcs1, hv]
            have hk : size + 1 + k2 = size + (k2 + 1) := by omega
            rw [hk]
            simp [List.append_assoc]
          · exact ArrayElems.elem _ _ _ hvv
              (ArrayElems_comments_prepend honly1 (ArrayElems_comments_prepend honly2 harr2))
        · exact absurd h (by simp [throw_at_last_apply])
    · -- parse_inline_table
      intro st u st2 h
      rw [parse_inline_table.eq_2] at h
      rw [bind_ok_iff] at h
      obtain ⟨c0, st1, h1, h⟩ := h
      have e1 := (input_get_ok h1).2.2
      rw [bind_ok_iff] at h
      obtain ⟨u2, st3, h3, h⟩ := h
      have e3 := emit_ok h3
      rw [bind_ok_iff] at h
      obtain ⟨u4, st4, h4, h⟩ := h
      have e4 := skip_spaces_events h4
      rw [bind_ok_iff] at h
      obtain ⟨p, st4b, h4b, h⟩ := h
      rw [input_peek_apply] at h4b
      cases h4b
      rcases ite_app_ok h with ⟨_, h⟩ | ⟨_, h⟩
      · rw [bind_ok_iff] at h
        obtain ⟨c5, st5, h5, h⟩ := h
        have e5 := (input_get_ok h5).2.2
        have e6 := emit_ok h
        refine ⟨Event.start_inline_table :: ([] ++ [Event.finish_inline_table 0]), ?_,
          ValueEvs.itable [] 0 TablePairs.nil⟩
        rw [e6, e5, e4, e3, e1]
        simp
      · obtain ⟨es, k, hev, htp⟩ := ihitl 0 st4 u st2 h
        refine ⟨Event.start_inline_table :: (es ++ [Event.finish_inline_table (0 + k)]), ?_, ?_⟩
        · rw [hev, e4, e3, e1]
          simp [List.append_assoc]
        · rw [Nat.zero_add]
          exact ValueEvs.itable es k htp
    · -- parse_inline_table_loop
      intro size st u st2 h
      rw [parse_inline_table_loop.eq_2] at h
      rw [bind_ok_iff] at h
      obtain ⟨kk, st1, h1, h⟩ := h
      have e1 := parse_key_events h1
      rw [bind_ok_iff] at h
      obtain ⟨u2, st3, h3, h⟩ := h
      have e3 := emit_ok h3
      rw [bind_ok_iff] at h
      obtain ⟨u4, st4, h4, h⟩ := h
      have e4 := skip_spaces_events h4
      rw [bind_ok_iff] at h
      obtain ⟨c5, st5, h5, h⟩ := h
      have e5 := parse_chars_events h5
      rw [bind_ok_iff] at h
      obtain ⟨u6, st6, h6, h⟩ := h
      have e6 := skip_spaces_events h6
      rw [bind_ok_iff] at h
      obtain ⟨t, st7, h7, h⟩ := h
      obtain ⟨v, hv, hvv⟩ := ihv _ _ _ h7
      rw [bind_ok_iff] at h
      obtain ⟨u8, st8, h8, h⟩ := h
      have e8 := skip_spaces_events h8
      rw [bind_ok_iff] at h
      obtain ⟨ch, st9, h9, h⟩ := h
      have e9 := (input_get_ok h9).2.2
      rcases ite_app_ok h with ⟨_, h⟩ | ⟨_, h⟩
      · have e10 := emit_ok h
        refine ⟨Event.key kk :: (v ++ []), 1, ?_,
          TablePairs.pair kk v [] 0 hvv TablePairs.nil⟩
        rw [e10, e9, e8, hv, e6, e5, e4, e3, e1]
        simp [List.append_assoc]
      rcases ite_app_ok h with ⟨_, h⟩ | ⟨_, h⟩
      · rw [bind_ok_iff] at h
        obtain ⟨u10, st10, h10, h⟩ := h
        have e10 := skip_spaces_events h10
        obtain ⟨es2, k2, hev2, htp2⟩ := ihitl (size + 1) st10 u st2 h
        refine ⟨Event.key kk :: (v ++ es2), k2 + 1, ?_,
          TablePairs.pair kk v es2 k2 hvv htp2⟩
        rw [hev2, e10, e9, e8, hv, e6, e5, e4, e3, e1]
        have hk : size + 1 + k2 = size + (k2 + 1) := by omega
        rw [hk]
        simp [List.append_assoc]
      · exact absurd h (by simp [throw_at_last_apply])

theorem parse_table_header_loop_events : ∀ {fuel : Nat} {ai : Bool} {path : List (List Char)}
    {st : PState} {r : List (List Char)} {st2 : PState},
    parse_table_header_loop fuel ai path st = .ok r st2 → st2.events = st.events := by
  intro fuel
  induction fuel with
  | zero =>
    intro ai path st r st2 h
    rw [parse_table_header_loop.eq_1] at h
    simp at h
  | succ fuel ih =>
    intro ai path st r st2 h
    rw [parse_table_header_loop.eq_2] at h
    rw [bind_ok_iff] at h
    obtain ⟨u1, st1, h1, h⟩ := h
    have e1 := skip_spaces_events h1
    rw [bind_ok_iff] at h
    obtain ⟨kk, st2a, h2, h⟩ := h
    have e2 := parse_key_events h2
    rw [bind_ok_iff] at h
    obtain ⟨u3, st3, h3, h⟩ := h
    have e3 := skip_spaces_events h3
    rw [bind_ok_iff] at h
    obtain ⟨p, st3b, h3b, h⟩ := h
    rw [input_peek_apply] at h3b
    cases h3b
    rcases ite_app_ok h with ⟨_, h⟩ | ⟨_, h⟩
    · rw [bind_ok_iff] at h
      obtain ⟨c4, st4, h4, h⟩ := h
      have e4 := (input_get_ok h4).2.2
      rcases ite_app_ok h with ⟨_, h⟩ | ⟨_, h⟩
      · rw [bind_ok_iff] at h
        obtain ⟨c5, st5, h5, h⟩ := h
        have e5 := parse_chars_events h5
        rw [PM_pure_apply] at h
        cases h
        rw [e5, e4, e3, e2, e1]
      · rw [PM_pure_apply] at h
        cases h
        rw [e4, e3, e2, e1]
    · rw [bind_ok_iff] at h
      obtain ⟨c4, st4, h4, h⟩ := h
      have e4 := parse_chars_events h4
      rw [ih h, e4, e3, e2, e1]

theorem parse_table_header_events {fuel : Nat} {st : PState} {u : Unit} {st2 : PState}
    (h : parse_table_header fuel st = .ok u st2) :
    ∃ p, st2.events = st.events ++ [Event.table p] ∨
      st2.events = st.events ++ [Event.array_table p] := by
  simp only [parse_table_header] at h
  rw [bind_ok_iff] at h
  obtain ⟨c0, st1, h1, h⟩ := h
  have e1 := (input_get_ok h1).2.2
  rw [bind_ok_iff] at h
  obtain ⟨p, st1b, h1b, h⟩ := h
  rw [input_peek_apply] at h1b
  cases h1b
  rcases ite_app_ok h with ⟨_, h⟩ | ⟨_, h⟩
  · rw [bind_ok_iff] at h
    obtain ⟨c2, st3, h3, h⟩ := h
    have e3 := (input_get_ok h3).2.2
    rw [bind_ok_iff] at h
    obtain ⟨path, st4, h4, h⟩ := h
    have e4 := parse_table_header_loop_events h4
    exact ⟨path, Or.inr (by rw [emit_ok h, e4, e3, e1])⟩
  · rw [bind_ok_iff] at h
    obtain ⟨path, st4, h4, h⟩ := h
    have e4 := parse_table_header_loop_events h4
    exact ⟨path, Or.inl (by rw [emit_ok h, e4, e1])⟩

theorem parse_kv_pair_events {fuel : Nat} {st : PState} {u : Unit} {st2 : PState}
    (h : parse_kv_pair fuel st = .ok u st2) :
    ∃ k v, st2.events = st.events ++ (Event.key k :: v) ∧ ValueEvs v := by
  simp only [parse_kv_pair] at h
  rw [bind_ok_iff] at h
  obtain ⟨kk, st1, h1, h⟩ := h
  have e1 := parse_key_events h1
  rw [bind_ok_iff] at h
  obtain ⟨u2, st3, h3, h⟩ := h
  have e3 := emit_ok h3
  rw [bind_ok_iff] at h
  obtain ⟨u4, st4, h4, h⟩ := h
  have e4 := skip_spaces_events h4
  rw [bind_ok_iff] at h
  obtain ⟨c5, st5, h5, h⟩ := h
  have e5 := parse_chars_events h5
  rw [bind_ok_iff] at h
  obtain ⟨u6, st6, h6, h⟩ := h
  have e6 := skip_spaces_events h6
  rw [bind_ok_iff] at h
  obtain ⟨t, st7, h7, h⟩ := h
  obtain ⟨v, hv, hvv⟩ := (grammar_events_spec fuel).1 _ _ _ h7
  rw [PM_pure_apply] at h
  cases h
  refine ⟨kk, v, ?_, hvv⟩
  rw [hv, e6, e5, e4, e3, e1]
  simp [List.append_assoc]

theorem parse_expression_events {fuel : Nat} {st : PState} {u : Unit} {st2 : PState}
    (h : parse_expression fuel st = .ok u st2) :
    ∃ items, st2.events = st.events ++ items ∧ TopItems items := by
  simp only [parse_expression] at h
  rw [bind_ok_iff] at h
  obtain ⟨u1, st1, h1, h⟩ := h
  have e1 := skip_spaces_events h1
  rw [bind_ok_iff] at h
  obtain ⟨e, st1b, h1b, h⟩ := h
  rw [input_eof_apply] at h1b
  cases h1b
  rcases ite_app_ok h with ⟨_, h⟩ | ⟨_, h⟩
  · rw [PM_pure_apply] at h
    cases h
    exact ⟨[], by simp [e1], TopItems.nil⟩
  rw [bind_ok_iff] at h
  obtain ⟨p, st1c, h1c, h⟩ := h
  rw [input_peek_apply] at h1c
  cases h1c
  rcases ite_app_ok h with ⟨_, h⟩ | ⟨_, h⟩
  · rw [PM_pure_apply] at h
    cases h
    exact ⟨[], by simp [e1], TopItems.nil⟩
  rcases ite_app_ok h with ⟨_, h⟩ | ⟨_, h⟩
  · obtain ⟨c, hc⟩ := parse_comment_events h
    exact ⟨[Event.comment c], by rw [hc, e1], TopItems.comment c [] TopItems.nil⟩
  rcases ite_app_ok h with ⟨_, h⟩ | ⟨_, h⟩
  · rw [bind_ok_iff] at h
    obtain ⟨u2, st3, h3, h⟩ := h
    obtain ⟨path, hpath⟩ := parse_table_header_events h3
    rw [bind_ok_iff] at h
    obtain ⟨u4, st4, h4, h⟩ := h
    have e4 := skip_spaces_events h4
    rw [bind_ok_iff] at h
    obtain ⟨e2, st4b, h4b, h⟩ := h
    rw [input_eof_apply] at h4b
    cases h4b
    rw [bind_ok_iff] at h
    obtain ⟨p2, st4c, h4c, h⟩ := h
    rw [input_peek_apply] at h4c
    cases h4c
    have hdr : ∀ item, (st3.events = st1.events ++ [item]) →
        (∀ rest, TopItems rest → TopItems (item :: rest)) →
        ∃ items, st2.events = st.events ++ items ∧ TopItems items := by
      intro item hitem hcons
      rcases ite_app_ok h with ⟨_, h⟩ | ⟨_, h⟩
      · obtain ⟨c, hc⟩ := parse_comment_events h
        refine ⟨[item, Event.comment c], ?_, hcons _ (TopItems.comment c [] TopItems.nil)⟩
        rw [hc, e4, hitem, e1]
        simp [List.append_assoc]
      · rw [PM_pure_apply] at h
        cases h
        refine ⟨[item], ?_, hcons [] TopItems.nil⟩
        rw [e4, hitem, e1]
    cases hpath with
    | inl hl => exact hdr (Event.table path) hl (fun rest hr => TopItems.table path rest hr)
    | inr hr2 =>
      exact hdr (Event.array_table path) hr2 (fun rest hr => TopItems.array_table path rest hr)
  · rw [bind_ok_iff] at h
    obtain ⟨u2, st3, h3, h⟩ := h
    obtain ⟨kk, v, hkv, hvv⟩ := parse_kv_pair_events h3
    rw [bind_ok_iff] at h
    obtain ⟨u4, st4, h4, h⟩ := h
    have e4 := skip_spaces_events h4
    rw [bind_ok_iff] at h
    obtain ⟨e2, st4b, h4b, h⟩ := h
    rw [input_eof_apply] at h4b
    cases h4b
    rw [bind_ok_iff] at h
    obtain ⟨p2, st4c, h4c, h⟩ := h
    rw [input_peek_apply] at h4c
    cases h4c
    rcases ite_app_ok h with ⟨_, h⟩ | ⟨_, h⟩
    · obtain ⟨c, hc⟩ := parse_comment_events h
      refine ⟨Event.key kk :: (v ++ [Event.comment c]), ?_, ?_⟩
      · rw [hc, e4, hkv, e1]
        simp [List.append_assoc]
      · exact TopItems.kv kk v _ hvv (TopItems.comment c [] TopItems.nil)
    · rw [PM_pure_apply] at h
      cases h
      refine ⟨Event.key kk :: (v ++ []), ?_, TopItems.kv kk v [] hvv TopItems.nil⟩
      rw [e4, hkv, e1]
      simp

theorem parse_toplevel_loop_events : ∀ {fuel : Nat} {st : PState} {u : Unit} {st2 : PState},
    parse_toplevel_loop fuel st = .ok u st2 →
    ∃ items, st2.events = st.events ++ items ∧ TopItems items := by
  intro fuel
  induction fuel with
  | zero =>
    intro st u st2 h
    rw [parse_toplevel_loop.eq_1] at h
    simp at h
  | succ fuel ih =>
    intro st u st2 h
    rw [parse_toplevel_loop.eq_2] at h
    rw [bind_ok_iff] at h
    obtain ⟨e, st0, h0, h⟩ := h
    rw [input_eof_apply] at h0
    cases h0
    rcases ite_app_ok h with ⟨_, h⟩ | ⟨_, h⟩
    · rw [PM_pure_apply] at h
      cases h
      exact ⟨[], by simp, TopItems.nil⟩
    · rw [bind_ok_iff] at h
      obtain ⟨u1, st1, h1, h⟩ := h
      have e1 := parse_new_line_events h1
      rw [bind_ok_iff] at h
      obtain ⟨u2, st3, h3, h⟩ := h
      obtain ⟨items1, hi1, ht1⟩ := parse_expression_events h3
      obtain ⟨items2, hi2, ht2⟩ := ih h
      refine ⟨items1 ++ items2, ?_, TopItems_append ht1 ht2⟩
      rw [hi2, hi1, e1]
      simp [List.append_assoc]

/-- C4: for every input on which parsing succeeds, the delivered event
sequence is exactly one `start_document`, then a body containing no
document events, then exactly one `finish_document`; within the body,
`TopItems`/`ValueEvs`/`ArrayElems`/`TablePairs` state that every
`start_array`/`finish_array` and `start_inline_table`/`finish_inline_table`
pair is properly nested and that each finish event's count equals the
number of elements (for arrays) or key-value pairs (for inline tables)
emitted directly between its start and its finish. -/
theorem claim_C4_event_stream_well_formed {fuel : Nat} {input : List Char} {u : Unit}
    {st2 : PState} (h : parse fuel (init_state input) = .ok u st2) :
    ∃ body, st2.events = Event.start_document :: (body ++ [Event.finish_document]) ∧
      TopItems body := by
  simp only [parse] at h
  rw [bind_ok_iff] at h
  obtain ⟨u1, st1, h1, h⟩ := h
  have e1 := emit_ok h1
  rw [bind_ok_iff] at h
  obtain ⟨u2, st3, h3, h⟩ := h
  obtain ⟨items1, hi1, ht1⟩ := parse_expression_events h3
  rw [bind_ok_iff] at h
  obtain ⟨u3, st4, h4, h⟩ := h
  obtain ⟨items2, hi2, ht2⟩ := parse_toplevel_loop_events h4
  have efinal := emit_ok h
  refine ⟨items1 ++ items2, ?_, TopItems_append ht1 ht2⟩
  rw [efinal, hi2, hi1, e1]
  simp [init_state, List.append_assoc]

theorem last_char_offset_reduces (rest : List Char) (evs : List Event) (p : Nat)
    (hp : p < SIZE_T_MOD) :
    last_char_offset ⟨rest, p, evs⟩ = if p = 0 then 0 else p - 1 := by
  show (if p = 0 then 0 else (p + (SIZE_T_MOD - 1)) % SIZE_T_MOD) = if p = 0 then 0 else p - 1
  by_cases h0 : p = 0
  · rw [if_pos h0, if_pos h0]
  · rw [if_neg h0, if_neg h0]
    have h1 : p + (SIZE_T_MOD - 1) = (p - 1) + 1 * SIZE_T_MOD := by
      simp only [SIZE_T_MOD] at *
      omega
    rw [h1, Nat.add_mul_mod_self_right]
    exact Nat.mod_eq_of_lt (by simp only [SIZE_T_MOD] at *; omega)

/-- C10: every error byte offset computed via `last_char_offset` equals
the number of processed bytes minus one when at least one byte has been
consumed, and equals 0 when no byte has been consumed; the guarded
`std::size_t` subtraction never wraps around (the result never exceeds
`processed`). -/
theorem claim_C10_last_char_offset (st : PState) (h : st.processed < SIZE_T_MOD) :
    (st.processed = 0 → last_char_offset st = 0) ∧
    (0 < st.processed → last_char_offset st = st.processed - 1) ∧
    last_char_offset st ≤ st.processed := by
  rcases st with ⟨rest, p, evs⟩
  have hp : ({ rest := rest, processed := p, events := evs } : PState).processed = p := rfl
  rw [hp] at h ⊢
  rw [last_char_offset_reduces rest evs p h]
  refine ⟨?_, ?_, ?_⟩
  · intro h0
    rw [if_pos h0]
  · intro hpos
    rw [if_neg (by omega)]
  · by_cases h0 : p = 0
    · rw [if_pos h0]
      omega
    · rw [if_neg h0]
      omega

theorem claim_C10_witness :
    last_char_offset ⟨[], 5, []⟩ = 4 ∧ last_char_offset ⟨[], 0, []⟩ = 0 :=
  ⟨(claim_C10_last_char_offset ⟨[], 5, []⟩ (by norm_num [SIZE_T_MOD])).2.1 (by norm_num),
   (claim_C10_last_char_offset ⟨[], 0, []⟩ (by norm_num [SIZE_T_MOD])).1 rfl⟩

/-- C9: parsing a completely empty input succeeds and delivers exactly
the two events `start_document` and `finish_document`, for every
sufficient fuel. -/
theorem claim_C9_empty_input : ∀ fuel : Nat,
    parse (fuel + 1) (init_state []) =
      .ok () ⟨[], 0, [Event.start_document, Event.finish_document]⟩ :=
  fun _ => rfl

/-- C1: the claim states that a bare token matching none of the
boolean/integer/float/identifier patterns — for example `1z2` — fails
with an "Invalid value" error.  The source's float regex
`^[-+]?((\d*.\d+)|(\d+.\d*)|\d+)([eE][-+]?\d+)?$` instead leaves the
decimal point as an unescaped regex dot, which matches any character, so
the code classifies `1z2` as a float (`\d+` `.`=`z` `\d*`) and delivers
`floating_point` (with `std::stod` parsing the numeric prefix `1`): the
code contradicts the intended float pattern (compare the escaped
`\\.?` in the commented-out previous regex on the adjacent source line). -/
theorem claim_C1_float_regex_dot_bug :
    parse_bool_or_number_or_symbol (init_state "1z2".toList) =
      .ok .floating_point ⟨[], 3, [Event.floating_point "1z2".toList]⟩ := rfl

/-- C7: the claim states that the "Invalid value" error carries the
offset of the token's first byte.  The source instead passes the literal
offset 0 (`throw parser_error_t("Invalid value", 0)`): parsing `k = -`
whose unclassifiable token `-` starts at byte offset 4 produces the error
at offset 0, both through the full document grammar and directly at the
bare-token scan positioned at offset 4. -/
theorem claim_C7_invalid_value_offset_zero :
    parse 100 (init_state "k = -".toList) = .err ⟨"Invalid value", 0⟩ ∧
    parse_bool_or_number_or_symbol ⟨"-".toList, 4, [Event.start_document, Event.key ['k']]⟩ =
      .err ⟨"Invalid value", 0⟩ :=
  ⟨rfl, rfl⟩

/-- C5: in a multiline basic string exactly one newline immediately
following the opening delimiter is discarded (`"""\nfoo"""` yields `foo`,
`"""\n\nfoo"""` yields `\nfoo`), and every other raw newline — `\n` or
`\r\n` — passes one single `\n` byte to the output: the scan loop maps a
leading `\n` (or `\r\n`) of the remaining input to exactly one appended
`\n`, and the preamble discards the first newline without appending. -/
theorem claim_C5_multiline_leading_newline :
    (parse_string 50 (init_state "\"\"\"\nfoo\"\"\"".toList) =
      .ok () ⟨[], 10, [Event.string "foo".toList]⟩) ∧
    (parse_string 50 (init_state "\"\"\"\n\nfoo\"\"\"".toList) =
      .ok () ⟨[], 11, [Event.string "\nfoo".toList]⟩) ∧
    (∀ fuel result p evs rest,
      parse_multiline_loop (fuel + 1) result ⟨lf_c :: rest, p, evs⟩ =
        parse_multiline_loop fuel (result ++ [lf_c]) ⟨rest, p + 1, evs⟩) ∧
    (∀ fuel result p evs rest,
      parse_multiline_loop (fuel + 1) result ⟨cr_c :: lf_c :: rest, p, evs⟩ =
        parse_multiline_loop fuel (result ++ [lf_c]) ⟨rest, p + 2, evs⟩) ∧
    (∀ fuel p evs rest,
      parse_multiline_string fuel ⟨lf_c :: rest, p, evs⟩ =
        parse_multiline_loop fuel [] ⟨rest, p + 1, evs⟩) :=
  ⟨rfl, rfl, fun _ _ _ _ _ => rfl, fun _ _ _ _ _ => rfl, fun _ _ _ _ => rfl⟩

/-- C6: inside a multiline basic string a backslash immediately followed
by a newline consumes that newline and the maximal following run of
whitespace, appending nothing to the output, so `"""a\` + newline +
`   b"""` yields `ab`. -/
theorem claim_C6_line_splicing :
    (parse_string 50 (init_state "\"\"\"a\\\n   b\"\"\"".toList) =
      .ok () ⟨[], 13, [Event.string "ab".toList]⟩) ∧
    (∀ fuel result p evs rest,
      parse_multiline_loop (fuel + 1) result ⟨bsl_c :: lf_c :: rest, p, evs⟩ =
        parse_multiline_loop fuel result
          ⟨rest.dropWhile is_space_cpp, p + 2 + (rest.takeWhile is_space_cpp).length, evs⟩) ∧
    (∀ fuel result p evs rest,
      parse_multiline_loop (fuel + 1) result ⟨bsl_c :: cr_c :: lf_c :: rest, p, evs⟩ =
        parse_multiline_loop fuel result
          ⟨rest.dropWhile is_space_cpp, p + 3 + (rest.takeWhile is_space_cpp).length, evs⟩) :=
  ⟨rfl, fun _ _ _ _ _ => rfl, fun _ _ _ _ _ => rfl⟩

theorem bind_ok_run {α β : Type} {x : PM α} {a : α} {st st1 : PState} (hx : x st = .ok a st1)
    (f : α → PM β) : (x >>= f) st = f a st1 := by
  rw [PM_bind_apply, hx]

/-- C2: in the array element loop, when at least one element has already
been parsed (`0 < size`) and the next element's type tag differs from the
recorded tag, parsing fails with the inhomogeneous-array error positioned
at `st.processed` — the byte offset of that element's first byte (the
loop records `item_offset = input.processed()` before parsing the
element).  On `[1, "a"]` the failure is at the start of `"a"`. -/
theorem claim_C2_inhomogeneous_element (fuel : Nat) (array_type : Option toml_type_t)
    (size : Nat) (st : PState) (current : toml_type_t) (st2 : PState)
    (hsize : 0 < size)
    (hnotbr : ¬ st.rest.head? = some ']')
    (hval : parse_value fuel st = .ok current st2)
    (hne : array_type ≠ some current) :
    parse_array_loop (fuel + 1) array_type size st =
      .err ⟨"All array elements must be of the same type", st.processed⟩ := by
  rw [parse_array_loop.eq_2, bind_ok_run (input_peek_apply st)]
  rw [if_neg hnotbr, bind_ok_run (get_processed_apply st)]
  rw [bind_ok_run hval]
  rw [if_pos ⟨hsize, hne⟩, throwP_apply]

theorem claim_C2_witness :
    parse_array_loop 31 (some toml_type_t.integer) 1
      ⟨"\"a\"]".toList, 4, [Event.start_document, Event.key ['x'],
        Event.start_array, Event.integer 1]⟩ =
      .err ⟨"All array elements must be of the same type", 4⟩ :=
  claim_C2_inhomogeneous_element 30 (some toml_type_t.integer) 1
    ⟨"\"a\"]".toList, 4, [Event.start_document, Event.key ['x'],
      Event.start_array, Event.integer 1]⟩
    toml_type_t.string
    ⟨[']'], 7, [Event.start_document, Event.key ['x'], Event.start_array,
      Event.integer 1, Event.string ['a']]⟩
    (by norm_num) (by decide) (by rfl) (by decide)

/-- C3: a `\u`/`\U` escape's decoded code point is rejected — with the
error positioned at the offset handed to `process_codepoint` — exactly
when it lies in the surrogate range 0xD800..0xDFFF or exceeds 0x10FFFF;
otherwise its UTF-8 encoding (1 byte up to 0x7F, 2 up to 0x7FF, 3 up to
0xFFFF, 4 otherwise) is appended to the output.  Inside a basic string
the offset passed is the backslash's byte offset: scanning `\uD800`
starting at offset `p` fails with the surrogate-range error at `p`. -/
theorem claim_C3_codepoint_validation :
    (∀ cp off : Nat, ∀ out : List Char,
      (∃ m, process_codepoint cp off out = .error ⟨m, off⟩) ↔
        ((0xD800 ≤ cp ∧ cp ≤ 0xDFFF) ∨ 0x10FFFF < cp)) ∧
    (∀ cp off : Nat, ∀ out : List Char,
      ¬ ((0xD800 ≤ cp ∧ cp ≤ 0xDFFF) ∨ 0x10FFFF < cp) →
        process_codepoint cp off out = .ok (out ++ utf8_encode cp) ∧
        (utf8_encode cp).length =
          (if cp ≤ 0x7F then 1 else if cp ≤ 0x7FF then 2 else if cp ≤ 0xFFFF then 3 else 4)) ∧
    (∀ fuel : Nat, ∀ result : List Char, ∀ p : Nat, ∀ evs : List Event, ∀ rest : List Char,
      p + 1 < SIZE_T_MOD →
        parse_basic_string (fuel + 1) result
            ⟨bsl_c :: 'u' :: 'D' :: '8' :: '0' :: '0' :: rest, p, evs⟩ =
          .err ⟨"Surrogate pairs are not allowed", p⟩) := by
  refine ⟨?_, ?_, ?_⟩
  · intro cp off out
    constructor
    · rintro ⟨m, hm⟩
      by_contra hcond
      obtain ⟨hA, hB⟩ := not_or.mp hcond
      unfold process_codepoint at hm
      rw [if_neg hA, if_neg (by omega : ¬ 0x10FFFF < cp)] at hm
      split at hm
      · simp at hm
      split at hm
      · simp at hm
      split at hm
      · simp at hm
      · simp at hm
    · intro hcond
      unfold process_codepoint
      by_cases hsurr : 0xD800 ≤ cp ∧ cp ≤ 0xDFFF
      · rw [if_pos hsurr]
        exact ⟨_, rfl⟩
      · rcases hcond with hc | hbig
        · exact absurd hc hsurr
        · rw [if_neg hsurr, if_pos hbig]
          exact ⟨_, rfl⟩
  · intro cp off out hcond
    obtain ⟨hA, hB⟩ := not_or.mp hcond
    constructor
    · unfold process_codepoint utf8_encode
      rw [if_neg hA, if_neg hB]
      split
      · rfl
      split
      · rfl
      split
      · rfl
      · rfl
    · unfold utf8_encode
      split
      · rfl
      split
      · rfl
      split
      · rfl
      · rfl
  · intro fuel result p evs rest hp
    have base : parse_basic_string (fuel + 1) result
        ⟨bsl_c :: 'u' :: 'D' :: '8' :: '0' :: '0' :: rest, p, evs⟩ =
        .err ⟨"Surrogate pairs are not allowed",
          last_char_offset ⟨'u' :: 'D' :: '8' :: '0' :: '0' :: rest, p + 1, evs⟩⟩ := rfl
    rw [base, last_char_offset_reduces]
    · simp
    · exact hp

theorem claim_C3_witness :
    (∃ m, process_codepoint 0xD800 7 [] = .error ⟨m, 7⟩) ∧
    process_codepoint 0x41 3 [] = .ok ['A'] ∧
    parse_basic_string 5 [] ⟨[bsl_c, 'u', 'D', '8', '0', '0'], 0, []⟩ =
      .err ⟨"Surrogate pairs are not allowed", 0⟩ :=
  ⟨(claim_C3_codepoint_validation.1 0xD800 7 []).mpr (Or.inl (by norm_num)),
   ((claim_C3_codepoint_validation.2.1 0x41 3 []) (by norm_num)).1,
   claim_C3_codepoint_validation.2.2 4 [] 0 [] [] (by norm_num [SIZE_T_MOD])⟩

theorem claim_C4_witness :
    ∃ body, ([Event.start_document, Event.finish_document] : List Event) =
      Event.start_document :: (body ++ [Event.finish_document]) ∧ TopItems body :=
  claim_C4_event_stream_well_formed
    (by rfl : parse 1 (init_state []) =
      .ok () ⟨[], 0, [Event.start_document, Event.finish_document]⟩)

theorem parse_value_bracket_ok (fuel : Nat) (st st2 : PState)
    (hhead : st.rest.head? = some '[')
    (harr : parse_array fuel st = .ok () st2) :
    parse_value (fuel + 1) st = .ok .array st2 := by
  rw [parse_value.eq_2, bind_ok_run (input_peek_apply st), hhead]
  rw [if_neg (by decide : ¬ (some '[' = some '{')), if_pos rfl, bind_ok_run harr, PM_pure_apply]

theorem parse_array_open (fuel : Nat) (st st1 st2 st3 : PState)
    (hget : input_get st = .ok '[' st1)
    (hemit : emit Event.start_array st1 = .ok () st2)
    (hskip : skip_spaces_and_empty_lines fuel st2 = .ok () st3) :
    parse_array (fuel + 1) st = parse_array_loop fuel none 0 st3 := by
  rw [parse_array.eq_2, bind_ok_run hget, bind_ok_run hemit, bind_ok_run hskip]

theorem parse_array_loop_step_continue (fuel : Nat) (ty : Option toml_type_t) (size : Nat)
    (st st1 st2 st3 st4 : PState) (t : toml_type_t)
    (hne : ¬ st.rest.head? = some ']')
    (hval : parse_value fuel st = .ok t st1)
    (hok : ¬ (0 < size ∧ ty ≠ some t))
    (hskip : skip_spaces_and_empty_lines fuel st1 = .ok () st2)
    (hch : input_get st2 = .ok ',' st3)
    (hskip2 : skip_spaces_and_empty_lines fuel st3 = .ok () st4) :
    parse_array_loop (fuel + 1) ty size st = parse_array_loop fuel (some t) (size + 1) st4 := by
  rw [parse_array_loop.eq_2, bind_ok_run (input_peek_apply st), if_neg hne,
    bind_ok_run (get_processed_apply st), bind_ok_run hval, if_neg hok,
    bind_ok_run hskip, bind_ok_run hch]
  rw [if_neg (by decide : ¬ (',' = ']')), if_pos rfl, bind_ok_run hskip2]

theorem parse_array_loop_step_finish (fuel : Nat) (ty : Option toml_type_t) (size : Nat)
    (st st1 st2 st3 : PState) (t : toml_type_t)
    (hne : ¬ st.rest.head? = some ']')
    (hval : parse_value fuel st = .ok t st1)
    (hok : ¬ (0 < size ∧ ty ≠ some t))
    (hskip : skip_spaces_and_empty_lines fuel st1 = .ok () st2)
    (hch : input_get st2 = .ok ']' st3) :
    parse_array_loop (fuel + 1) ty size st =
      .ok () ⟨st3.rest, st3.processed, st3.events ++ [Event.finish_array (size + 1)]⟩ := by
  rw [parse_array_loop.eq_2, bind_ok_run (input_peek_apply st), if_neg hne,
    bind_ok_run (get_processed_apply st), bind_ok_run hval, if_neg hok,
    bind_ok_run hskip, bind_ok_run hch]
  rw [if_pos rfl, emit_apply]

/-- C8: array type-homogeneity is enforced only on the outermost type
tag returned by value dispatch — whenever the next byte is `[`, a
successful `parse_value` returns the tag `array` regardless of the
nested array's element types — so the value `[[1, 2], ["a", "b", "c"]]`
(whose nested arrays have differing element types) parses successfully,
as in the key4 case of the repository's complex-parse test. -/
theorem claim_C8_outermost_tag_only :
    (∀ fuel : Nat, ∀ st : PState, ∀ t : toml_type_t, ∀ st2 : PState,
      st.rest.head? = some '[' →
      parse_value (fuel + 1) st = .ok t st2 → t = .array) ∧
    parse_value 20 (init_state "[[1, 2], [\"a\", \"b\", \"c\"]]".toList) =
      .ok .array (⟨([] : List Char), 25, [Event.start_array, Event.start_array, Event.integer 1, Event.integer 2, Event.finish_array 2, Event.start_array, Event.string ['a'], Event.string ['b'], Event.string ['c'], Event.finish_array 3, Event.finish_array 2]⟩ : PState) := by
  constructor
  · intro fuel st t st2 hhead h
    rw [parse_value.eq_2] at h
    rw [bind_ok_iff] at h
    obtain ⟨p, st0, h0, h⟩ := h
    rw [input_peek_apply] at h0
    cases h0
    rw [hhead] at h
    rcases ite_app_ok h with ⟨hc, h⟩ | ⟨_, h⟩
    · exact absurd hc (by decide)
    rcases ite_app_ok h with ⟨_, h⟩ | ⟨hc, h⟩
    · rw [bind_ok_iff] at h
      obtain ⟨u, st1, h1, h⟩ := h
      rw [PM_pure_apply] at h
      cases h
      rfl
    · exact absurd rfl hc
  · -- the concrete example, assembled element by element
    have h_i1v : parse_value 14 (⟨"1, 2], [\"a\", \"b\", \"c\"]]".toList, 2, [Event.start_array, Event.start_array]⟩ : PState) = .ok .integer (⟨", 2], [\"a\", \"b\", \"c\"]]".toList, 3, [Event.start_array, Event.start_array, Event.integer 1]⟩ : PState) := rfl
    have h_i2v : parse_value 13 (⟨"2], [\"a\", \"b\", \"c\"]]".toList, 5, [Event.start_array, Event.start_array, Event.integer 1]⟩ : PState) = .ok .integer (⟨"], [\"a\", \"b\", \"c\"]]".toList, 6, [Event.start_array, Event.start_array, Event.integer 1, Event.integer 2]⟩ : PState) := rfl
    have h_jav : parse_value 13 (⟨"\"a\", \"b\", \"c\"]]".toList, 10, [Event.start_array, Event.start_array, Event.integer 1, Event.integer 2, Event.finish_array 2, Event.start_array]⟩ : PState) = .ok .string (⟨", \"b\", \"c\"]]".toList, 13, [Event.start_array, Event.start_array, Event.integer 1, Event.integer 2, Event.finish_array 2, Event.start_array, Event.string ['a']]⟩ : PState) := rfl
    have h_jbv : parse_value 12 (⟨"\"b\", \"c\"]]".toList, 15, [Event.start_array, Event.start_array, Event.integer 1, Event.integer 2, Event.finish_array 2, Event.start_array, Event.string ['a']]⟩ : PState) = .ok .string (⟨", \"c\"]]".toList, 18, [Event.start_array, Event.start_array, Event.integer 1, Event.integer 2, Event.finish_array 2, Event.start_array, Event.string ['a'], Event.string ['b']]⟩ : PState) := rfl
    have h_jcv : parse_value 11 (⟨"\"c\"]]".toList, 20, [Event.start_array, Event.start_array, Event.integer 1, Event.integer 2, Event.finish_array 2, Event.start_array, Event.string ['a'], Event.string ['b']]⟩ : PState) = .ok .string (⟨"]]".toList, 23, [Event.start_array, Event.start_array, Event.integer 1, Event.integer 2, Event.finish_array 2, Event.start_array, Event.string ['a'], Event.string ['b'], Event.string ['c']]⟩ : PState) := rfl
    have hA1 : parse_array 16 (⟨"[1, 2], [\"a\", \"b\", \"c\"]]".toList, 1, [Event.start_array]⟩ : PState) = .ok () (⟨", [\"a\", \"b\", \"c\"]]".toList, 7, [Event.start_array, Event.start_array, Event.integer 1, Event.integer 2, Event.finish_array 2]⟩ : PState) := by
      rw [parse_array_open 15 (⟨"[1, 2], [\"a\", \"b\", \"c\"]]".toList, 1, [Event.start_array]⟩ : PState) (⟨"1, 2], [\"a\", \"b\", \"c\"]]".toList, 2, [Event.start_array]⟩ : PState) (⟨"1, 2], [\"a\", \"b\", \"c\"]]".toList, 2, [Event.start_array, Event.start_array]⟩ : PState) (⟨"1, 2], [\"a\", \"b\", \"c\"]]".toList, 2, [Event.start_array, Event.start_array]⟩ : PState) rfl rfl rfl]
      rw [parse_array_loop_step_continue 14 none 0 (⟨"1, 2], [\"a\", \"b\", \"c\"]]".toList, 2, [Event.start_array, Event.start_array]⟩ : PState) (⟨", 2], [\"a\", \"b\", \"c\"]]".toList, 3, [Event.start_array, Event.start_array, Event.integer 1]⟩ : PState) (⟨", 2], [\"a\", \"b\", \"c\"]]".toList, 3, [Event.start_array, Event.start_array, Event.integer 1]⟩ : PState) (⟨" 2], [\"a\", \"b\", \"c\"]]".toList, 4, [Event.start_array, Event.start_array, Event.integer 1]⟩ : PState) (⟨"2], [\"a\", \"b\", \"c\"]]".toList, 5, [Event.start_array, Event.start_array, Event.integer 1]⟩ : PState)
        toml_type_t.integer (by decide) h_i1v (by decide) rfl rfl rfl]
      exact parse_array_loop_step_finish 13 (some toml_type_t.integer) 1 (⟨"2], [\"a\", \"b\", \"c\"]]".toList, 5, [Event.start_array, Event.start_array, Event.integer 1]⟩ : PState) (⟨"], [\"a\", \"b\", \"c\"]]".toList, 6, [Event.start_array, Event.start_array, Event.integer 1, Event.integer 2]⟩ : PState) (⟨"], [\"a\", \"b\", \"c\"]]".toList, 6, [Event.start_array, Event.start_array, Event.integer 1, Event.integer 2]⟩ : PState) (⟨", [\"a\", \"b\", \"c\"]]".toList, 7, [Event.start_array, Event.start_array, Event.integer 1, Event.integer 2]⟩ : PState)
        toml_type_t.integer (by decide) h_i2v (by decide) rfl rfl
    have h_inner1 : parse_value 17 (⟨"[1, 2], [\"a\", \"b\", \"c\"]]".toList, 1, [Event.start_array]⟩ : PState) = .ok .array (⟨", [\"a\", \"b\", \"c\"]]".toList, 7, [Event.start_array, Event.start_array, Event.integer 1, Event.integer 2, Event.finish_array 2]⟩ : PState) :=
      parse_value_bracket_ok 16 (⟨"[1, 2], [\"a\", \"b\", \"c\"]]".toList, 1, [Event.start_array]⟩ : PState) (⟨", [\"a\", \"b\", \"c\"]]".toList, 7, [Event.start_array, Event.start_array, Event.integer 1, Event.integer 2, Event.finish_array 2]⟩ : PState) (by decide) hA1
    have hA2 : parse_array 15 (⟨"[\"a\", \"b\", \"c\"]]".toList, 9, [Event.start_array, Event.start_array, Event.integer 1, Event.integer 2, Event.finish_array 2]⟩ : PState) = .ok () (⟨"]".toList, 24, [Event.start_array, Event.start_array, Event.integer 1, Event.integer 2, Event.finish_array 2, Event.start_array, Event.string ['a'], Event.string ['b'], Event.string ['c'], Event.finish_array 3]⟩ : PState) := by
      rw [parse_array_open 14 (⟨"[\"a\", \"b\", \"c\"]]".toList, 9, [Event.start_array, Event.start_array, Event.integer 1, Event.integer 2, Event.finish_array 2]⟩ : PState) (⟨"\"a\", \"b\", \"c\"]]".toList, 10, [Event.start_array, Event.start_array, Event.integer 1, Event.integer 2, Event.finish_array 2]⟩ : PState) (⟨"\"a\", \"b\", \"c\"]]".toList, 10, [Event.start_array, Event.start_array, Event.integer 1, Event.integer 2, Event.finish_array 2, Event.start_array]⟩ : PState) (⟨"\"a\", \"b\", \"c\"]]".toList, 10, [Event.start_array, Event.start_array, Event.integer 1, Event.integer 2, Event.finish_array 2, Event.start_array]⟩ : PState) rfl rfl rfl]
      rw [parse_array_loop_step_continue 13 none 0 (⟨"\"a\", \"b\", \"c\"]]".toList, 10, [Event.start_array, Event.start_array, Event.integer 1, Event.integer 2, Event.finish_array 2, Event.start_array]⟩ : PState) (⟨", \"b\", \"c\"]]".toList, 13, [Event.start_array, Event.start_array, Event.integer 1, Event.integer 2, Event.finish_array 2, Event.start_array, Event.string ['a']]⟩ : PState) (⟨", \"b\", \"c\"]]".toList, 13, [Event.start_array, Event.start_array, Event.integer 1, Event.integer 2, Event.finish_array 2, Event.start_array, Event.string ['a']]⟩ : PState) (⟨" \"b\", \"c\"]]".toList, 14, [Event.start_array, Event.start_array, Event.integer 1, Event.integer 2, Event.finish_array 2, Event.start_array, Event.string ['a']]⟩ : PState) (⟨"\"b\", \"c\"]]".toList, 15, [Event.start_array, Event.start_array, Event.integer 1, Event.integer 2, Event.finish_array 2, Event.start_array, Event.string ['a']]⟩ : PState)
        toml_type_t.string (by decide) h_jav (by decide) rfl rfl rfl]
      rw [parse_array_loop_step_continue 12 (some toml_type_t.string) 1 (⟨"\"b\", \"c\"]]".toList, 15, [Event.start_array, Event.start_array, Event.integer 1, Event.integer 2, Event.finish_array 2, Event.start_array, Event.string ['a']]⟩ : PState) (⟨", \"c\"]]".toList, 18, [Event.start_array, Event.start_array, Event.integer 1, Event.integer 2, Event.finish_array 2, Event.start_array, Event.string ['a'], Event.string ['b']]⟩ : PState) (⟨", \"c\"]]".toList, 18, [Event.start_array, Event.start_array, Event.integer 1, Event.integer 2, Event.finish_array 2, Event.start_array, Event.string ['a'], Event.string ['b']]⟩ : PState) (⟨" \"c\"]]".toList, 19, [Event.start_array, Event.start_array, Event.integer 1, Event.integer 2, Event.finish_array 2, Event.start_array, Event.string ['a'], Event.string ['b']]⟩ : PState) (⟨"\"c\"]]".toList, 20, [Event.start_array, Event.start_array, Event.integer 1, Event.integer 2, Event.finish_array 2, Event.start_array, Event.string ['a'], Event.string ['b']]⟩ : PState)
        toml_type_t.string (by decide) h_jbv (by decide) rfl rfl rfl]
      exact parse_array_loop_step_finish 11 (some toml_type_t.string) 2 (⟨"\"c\"]]".toList, 20, [Event.start_array, Event.start_array, Event.integer 1, Event.integer 2, Event.finish_array 2, Event.start_array, Event.string ['a'], Event.string ['b']]⟩ : PState) (⟨"]]".toList, 23, [Event.start_array, Event.start_array, Event.integer 1, Event.integer 2, Event.finish_array 2, Event.start_array, Event.string ['a'], Event.string ['b'], Event.string ['c']]⟩ : PState) (⟨"]]".toList, 23, [Event.start_array, Event.start_array, Event.integer 1, Event.integer 2, Event.finish_array 2, Event.start_array, Event.string ['a'], Event.string ['b'], Event.string ['c']]⟩ : PState) (⟨"]".toList, 24, [Event.start_array, Event.start_array, Event.integer 1, Event.integer 2, Event.finish_array 2, Event.start_array, Event.string ['a'], Event.string ['b'], Event.string ['c']]⟩ : PState)
        toml_type_t.string (by decide) h_jcv (by decide) rfl rfl
    have h_inner2 : parse_value 16 (⟨"[\"a\", \"b\", \"c\"]]".toList, 9, [Event.start_array, Event.start_array, Event.integer 1, Event.integer 2, Event.finish_array 2]⟩ : PState) = .ok .array (⟨"]".toList, 24, [Event.start_array, Event.start_array, Event.integer 1, Event.integer 2, Event.finish_array 2, Event.start_array, Event.string ['a'], Event.string ['b'], Event.string ['c'], Event.finish_array 3]⟩ : PState) :=
      parse_value_bracket_ok 15 (⟨"[\"a\", \"b\", \"c\"]]".toList, 9, [Event.start_array, Event.start_array, Event.integer 1, Event.integer 2, Event.finish_array 2]⟩ : PState) (⟨"]".toList, 24, [Event.start_array, Event.start_array, Event.integer 1, Event.integer 2, Event.finish_array 2, Event.start_array, Event.string ['a'], Event.string ['b'], Event.string ['c'], Event.finish_array 3]⟩ : PState) (by decide) hA2
    have hAO : parse_array 19 (⟨"[[1, 2], [\"a\", \"b\", \"c\"]]".toList, 0, []⟩ : PState) = .ok () (⟨([] : List Char), 25, [Event.start_array, Event.start_array, Event.integer 1, Event.integer 2, Event.finish_array 2, Event.start_array, Event.string ['a'], Event.string ['b'], Event.string ['c'], Event.finish_array 3, Event.finish_array 2]⟩ : PState) := by
      rw [parse_array_open 18 (⟨"[[1, 2], [\"a\", \"b\", \"c\"]]".toList, 0, []⟩ : PState) (⟨"[1, 2], [\"a\", \"b\", \"c\"]]".toList, 1, []⟩ : PState) (⟨"[1, 2], [\"a\", \"b\", \"c\"]]".toList, 1, [Event.start_array]⟩ : PState) (⟨"[1, 2], [\"a\", \"b\", \"c\"]]".toList, 1, [Event.start_array]⟩ : PState) rfl rfl rfl]
      rw [parse_array_loop_step_continue 17 none 0 (⟨"[1, 2], [\"a\", \"b\", \"c\"]]".toList, 1, [Event.start_array]⟩ : PState) (⟨", [\"a\", \"b\", \"c\"]]".toList, 7, [Event.start_array, Event.start_array, Event.integer 1, Event.integer 2, Event.finish_array 2]⟩ : PState) (⟨", [\"a\", \"b\", \"c\"]]".toList, 7, [Event.start_array, Event.start_array, Event.integer 1, Event.integer 2, Event.finish_array 2]⟩ : PState) (⟨" [\"a\", \"b\", \"c\"]]".toList, 8, [Event.start_array, Event.start_array, Event.integer 1, Event.integer 2, Event.finish_array 2]⟩ : PState) (⟨"[\"a\", \"b\", \"c\"]]".toList, 9, [Event.start_array, Event.start_array, Event.integer 1, Event.integer 2, Event.finish_array 2]⟩ : PState)
        toml_type_t.array (by decide) h_inner1 (by decide) rfl rfl rfl]
      exact parse_array_loop_step_finish 16 (some toml_type_t.array) 1 (⟨"[\"a\", \"b\", \"c\"]]".toList, 9, [Event.start_array, Event.start_array, Event.integer 1, Event.integer 2, Event.finish_array 2]⟩ : PState) (⟨"]".toList, 24, [Event.start_array, Event.start_array, Event.integer 1, Event.integer 2, Event.finish_array 2, Event.start_array, Event.string ['a'], Event.string ['b'], Event.string ['c'], Event.finish_array 3]⟩ : PState) (⟨"]".toList, 24, [Event.start_array, Event.start_array, Event.integer 1, Event.integer 2, Event.finish_array 2, Event.start_array, Event.string ['a'], Event.string ['b'], Event.string ['c'], Event.finish_array 3]⟩ : PState) (⟨([] : List Char), 25, [Event.start_array, Event.start_array, Event.integer 1, Event.integer 2, Event.finish_array 2, Event.start_array, Event.string ['a'], Event.string ['b'], Event.string ['c'], Event.finish_array 3]⟩ : PState)
        toml_type_t.array (by decide) h_inner2 (by decide) rfl rfl
    exact parse_value_bracket_ok 19 (⟨"[[1, 2], [\"a\", \"b\", \"c\"]]".toList, 0, []⟩ : PState) (⟨([] : List Char), 25, [Event.start_array, Event.start_array, Event.integer 1, Event.integer 2, Event.finish_array 2, Event.start_array, Event.string ['a'], Event.string ['b'], Event.string ['c'], Event.finish_array 3, Event.finish_array 2]⟩ : PState) (by decide) hAO

theorem claim_C8_witness :
    ("[1]".toList.head? = some '[') ∧ toml_type_t.array = toml_type_t.array :=
  ⟨by decide,
   claim_C8_outermost_tag_only.1 49 (init_state "[1]".toList) toml_type_t.array
     ⟨[], 3, [Event.start_array, Event.integer 1, Event.finish_array 1]⟩
     (by decide) (by rfl)⟩
